import Mathlib

/-!
Shallow embedding of the Azure datasource provisioning engine
(cloudinit/sources/DataSourceAzure.py and cloudinit/sources/azure/identity.py)
and proofs about its specified behaviour.

OS-level collaborators (path existence, realpath, blkid probing, mounting,
DHCP, sockets, HTTP) are modelled as explicit environment records: the
environment supplies their answers, and the embedded functions mirror the
control flow of the Python source over those answers.
-/

namespace AzureDS

/-! ## Disk safety gate (`can_dev_be_reformatted`) -/

/-- Outcome of `util.mount_cb(cand_path, count_files, mtype="ntfs")`:
either the mount succeeds and `os.listdir` of the mountpoint is returned,
or it raises `MountFailedError` whose text may or may not contain
`unknown filesystem type 'ntfs'`. -/
inductive MountOutcome where
  | ok (files : List String)
  | failNoNtfsSupport
  | failOther (msg : String)
deriving DecidableEq, Repr

/-- Environment answering the OS queries made by the disk gate. -/
structure DiskEnv where
  pathExists : String → Bool
  realpath : String → String
  /-- `util.find_devs_with("TYPE=ntfs")` result. -/
  ntfsDevices : List String
  /-- mounting a partition path as ntfs. -/
  mount : String → MountOutcome

/-- One probing pass of `_partitions_on_device`: for a fixed suffix,
collect `(pnum, realpath)` for `pnum` in `range(1, maxnum)` whose
`devpath + suff + str(pnum)` exists. -/
def probe_suffix (env : DiskEnv) (devpath suff : String) (maxnum : Nat) :
    List (Nat × String) :=
  (List.range' 1 (maxnum - 1)).filterMap fun pnum =>
    let ppath := devpath ++ suff ++ toString pnum
    if env.pathExists ppath then some (pnum, env.realpath ppath) else none

/-- `_partitions_on_device(devpath, maxnum=16)`: try suffixes
`"-part"`, `"p"`, `""` in order; the first suffix yielding a non-empty
list wins, else `[]`. -/
def _partitions_on_device (env : DiskEnv) (devpath : String)
    (maxnum : Nat := 16) : List (Nat × String) :=
  let f1 := probe_suffix env devpath "-part" maxnum
  if f1 ≠ [] then f1
  else
    let f2 := probe_suffix env devpath "p" maxnum
    if f2 ≠ [] then f2
    else
      let f3 := probe_suffix env devpath "" maxnum
      if f3 ≠ [] then f3 else []

/-- `_has_ntfs_filesystem(devpath)`. -/
def _has_ntfs_filesystem (env : DiskEnv) (devpath : String) : Bool :=
  env.ntfsDevices.contains (env.realpath devpath)

/-- `str.lower()` for the ASCII names compared here, written over the
character list so that concrete runs reduce. -/
def pyLower (s : String) : String :=
  ⟨s.data.map Char.toLower⟩

/-- `count_files(mp)`: number of entries whose lower-cased name is not the
placeholder `dataloss_warning_readme.txt`. -/
def count_files (files : List String) : Nat :=
  (files.filter fun f => pyLower f ≠ "dataloss_warning_readme.txt").length

/-- NTFS-candidate tail of `can_dev_be_reformatted`: the checks performed
once a candidate partition `(cand_part, cand_path)` has been selected. -/
def check_ntfs_candidate (env : DiskEnv) (cand : Nat × String) :
    Bool × String :=
  if ¬ _has_ntfs_filesystem env cand.2 then
    (false, "partition on device was not ntfs formatted")
  else
    match env.mount cand.2 with
    | .failNoNtfsSupport =>
        (true, "partition was ntfs formatted but this system cannot mount NTFS, assuming there are no important files. Formatting allowed.")
    | .failOther _ =>
        (false, "partition was ntfs formatted but mount failed")
    | .ok files =>
        if count_files files ≠ 0 then
          (false, "partition was ntfs formatted but had files on it")
        else
          (true, "partition was ntfs formatted and had no important files. Safe for reformatting.")

/-- `can_dev_be_reformatted(devpath, preserve_ntfs)`. -/
def can_dev_be_reformatted (env : DiskEnv) (devpath : String)
    (preserve_ntfs : Bool) : Bool × String :=
  if preserve_ntfs then
    (false, "config says to never destroy NTFS, skipping checks")
  else if ¬ env.pathExists devpath then
    (false, "device does not exist")
  else
    match _partitions_on_device env devpath with
    | [] => (false, "device was not partitioned")
    | _ :: _ :: _ :: _ => (false, "device had 3 or more partitions")
    | [_, cand] => check_ntfs_candidate env cand
    | [cand] => check_ntfs_candidate env cand

/-! ## IMDS fetch retry/log policy (`_fetch_imds_data.exception_cb`) -/

/-- A failed IMDS request attempt as seen by the exception callback.
`code` is the HTTP status (`none` for connection-level failures such as
timeouts); `msg` is the formatted diagnostic line
`Error requesting IMDS data. Args: ... Exception: ... Code: ...` after the
object-reference-stripping regex has been applied (the callback only ever
uses that normalized rendering, so it is carried as a field here). -/
structure UrlErr where
  code : Option Nat
  msg : String
deriving DecidableEq, Repr

/-- The mutable closure state of `exception_cb`: `cb_error_count`,
`cb_last_log`, `cb_logging_threshold_count` and
`cb_max_retries_for_connection_errors`. -/
structure CbState where
  errorCount : Nat
  lastLog : Option String
  threshold : Nat
  connBudget : Option Int
deriving DecidableEq, Repr

/-- Closure state at the start of `_fetch_imds_data`, for a caller-supplied
connection-error budget. -/
def initCbState (budget : Option Int) : CbState :=
  ⟨0, none, 1, budget⟩

/-- One invocation of `exception_cb`: the retry decision, whether a
diagnostic line was reported, and the updated closure state. -/
structure CbResult where
  retry : Bool
  logged : Bool
  state : CbState
deriving DecidableEq, Repr

/-- Python truthiness of the `Optional[int]` connection-error budget. -/
def budgetTruthy : Option Int → Bool
  | none => false
  | some b => b ≠ 0

/-- Python falsiness of `error.code` (`not error.code`). -/
def codeFalsy : Option Nat → Bool
  | none => true
  | some c => c = 0

/-- The callback's report condition
`log != cb_last_log or cb_error_count == cb_logging_threshold_count`
(with the count already incremented). -/
def cbLogged (s : CbState) (m : String) : Bool :=
  some m ≠ s.lastLog ∨ s.errorCount + 1 = s.threshold

/-- `exception_cb(request_args, error)` from `_fetch_imds_data`. -/
def exception_cb (s : CbState) (e : UrlErr) : CbResult :=
  let count := s.errorCount + 1
  let log := e.msg
  let logged : Bool := cbLogged s log
  let lastLog := if logged then some log else s.lastLog
  let threshold := if logged then s.threshold * 2 else s.threshold
  if e.code ∈ ([some 404, some 410, some 429, some 500] : List (Option Nat))
  then
    ⟨true, logged, ⟨count, lastLog, threshold, s.connBudget⟩⟩
  else if budgetTruthy s.connBudget ∧ codeFalsy e.code then
    match s.connBudget with
    | some b => ⟨b - 1 ≥ 0, logged, ⟨count, lastLog, threshold, some (b - 1)⟩⟩
    | none => ⟨false, logged, ⟨count, lastLog, threshold, none⟩⟩
  else
    ⟨false, logged, ⟨count, lastLog, threshold, s.connBudget⟩⟩

/-- Run the callback over a sequence of consecutive failed attempts,
threading its closure state. -/
def cb_run (s : CbState) : List UrlErr → List CbResult
  | [] => []
  | e :: es =>
    let r := exception_cb s e
    r :: cb_run r.state es

/-- The per-attempt retry decisions over a failure sequence. -/
def cb_retries (s : CbState) (errs : List UrlErr) : List Bool :=
  (cb_run s errs).map (·.retry)

/-- The per-attempt "diagnostic line reported" flags over a failure
sequence. -/
def cb_logs (s : CbState) (errs : List UrlErr) : List Bool :=
  (cb_run s errs).map (·.logged)

/-- The claim's reading of the log-suppression rule: report on an attempt
iff its attempt number equals the current (doubling) threshold or its
formatted message differs from the previous attempt's message. Unlike the
implementation, this recursion remembers the literal previous attempt's
message, not the last reported one. -/
def claimed_log_flags (attempt threshold : Nat) (prev : Option String) :
    List UrlErr → List Bool
  | [] => []
  | e :: es =>
    let fire : Bool := some e.msg ≠ prev ∨ attempt = threshold
    fire ::
      claimed_log_flags (attempt + 1)
        (if fire then threshold * 2 else threshold) (some e.msg) es

/-- Modelled from the spec: the HTTP retry driver (`url_helper.readurl`) is
not part of the sources under analysis; per the spec, `fetch` issues a
request per scripted outcome, returns the payload on success, and on a
failed attempt consults the per-attempt retry decision, stopping
immediately when it returns false and otherwise retrying while the overall
retry budget lasts. The first component counts requests attempted. -/
def fetch_loop (s : CbState) (retries : Nat) :
    List (Except UrlErr String) → Nat × Except UrlErr String
  | [] => (0, .error ⟨none, "no scripted response"⟩)
  | .ok body :: _ => (1, .ok body)
  | .error e :: rest =>
    let r := exception_cb s e
    if r.retry ∧ retries ≠ 0 then
      let next := fetch_loop r.state (retries - 1) rest
      (next.1 + 1, next.2)
    else
      (1, .error e)

/-! ## OVF envelope parsing (`read_azure_ovf` and helpers) -/

/-- A parsed XML DOM node as walked by `minidom`: an element with a local
name, attributes and child nodes, or a text node. -/
inductive XNode where
  | elem (localName : String) (attrs : List (String × String)) (children : List XNode)
  | text (s : String)

/-- The `lambda n: n.localName == name` predicates passed to `find_child`
(text nodes have `localName is None`, never matching). -/
def isElemNamed (name : String) : XNode → Bool
  | .elem n _ _ => n = name
  | .text _ => false

/-- `find_child(node, filter_func)`: the child nodes satisfying the
filter (empty for nodes without children). -/
def find_child (node : XNode) (p : XNode → Bool) : List XNode :=
  match node with
  | .elem _ _ children => children.filter p
  | .text _ => []

/-- `node.hasChildNodes()`. -/
def hasChildNodes : XNode → Bool
  | .elem _ _ children => ¬ children.isEmpty
  | .text _ => false

/-- `node.firstChild.nodeValue` when the node has a first child
(`nodeValue` of an element child is `None`). -/
def firstChildNodeValue : XNode → Option String
  | .elem _ _ (.text s :: _) => some s
  | _ => none

/-- Pure-Python-library collaborators used by the envelope fold
(`base64.b64decode`, `util.load_yaml`, `util.is_false`,
`util.translate_bool`, `encrypt_pass`); their outputs are opaque to the
claims proved here. Decode failures (which would abort the crawl with an
uncaught exception) are outside the analysed claims and not modelled. -/
structure PyLib where
  b64decode : String → String
  loadYaml : String → String
  is_false : String → Bool
  translate_bool : String → Bool
  encrypt_pass : String → String

/-- `DEF_PASSWD_REDACTION`. -/
def DEF_PASSWD_REDACTION : String := "REDACTED"

/-- `"".join(value.split())`: strip all whitespace. -/
def stripAllWhitespace (s : String) : String :=
  ⟨s.data.filter (fun c => ¬ c.isWhitespace)⟩

/-- `attrs.get(key)` over the attribute list. -/
def getAttr (attrs : List (String × String)) (key : String) : Option String :=
  (attrs.find? (fun a => a.1 = key)).map (·.2)

/-- One public-key entry collected by `load_azure_ovf_pubkeys`
(`fingerprint`/`path`/`value`, defaulting to empty strings). -/
structure PubKey where
  fingerprint : String
  path : String
  value : String
deriving DecidableEq, Repr

/-- Fold of one `PublicKey` node's element children into the
`{"fingerprint": "", "path": "", "value": ""}` record: an element child
whose lower-cased name is one of the keys and which has exactly one text
child overwrites that key with the stripped text. -/
def foldPubkeyFields : PubKey → List XNode → PubKey
  | cur, [] => cur
  | cur, .text _ :: rest => foldPubkeyFields cur rest
  | cur, .elem n _ cs :: rest =>
    let cur :=
      match cs with
      | [.text s] =>
        let name := pyLower n
        if name = "fingerprint" then { cur with fingerprint := s.trim }
        else if name = "path" then { cur with path := s.trim }
        else if name = "value" then { cur with value := s.trim }
        else cur
      | _ => cur
    foldPubkeyFields cur rest

/-- `load_azure_ovf_pubkeys(sshnode)`; raises `BrokenAzureDataSource` when
the SSH node holds more than one `PublicKeys` child. -/
def load_azure_ovf_pubkeys (sshnode : XNode) :
    Except String (List PubKey) :=
  match find_child sshnode (isElemNamed "PublicKeys") with
  | [] => .ok []
  | [pubkeysNode] =>
    let pubkeys := find_child pubkeysNode (isElemNamed "PublicKey")
    .ok <| pubkeys.filterMap fun pk =>
      match pk with
      | .elem _ _ [] => none
      | .elem _ _ cs => some (foldPubkeyFields ⟨"", "", ""⟩ cs)
      | .text _ => none
  | _ => .error "Multiple PublicKeys in SSH node"

/-- Accumulator for the child-dispatch loop of `read_azure_ovf`. -/
structure FoldState where
  localHostname : Option String := none
  seedfrom : Option String := none
  azureData : List (String × String) := []
  ud : String := ""
  username : Option String := none
  password : Option String := none
  dscfgYaml : Option String := none
  pubkeys : Option (List PubKey) := none
  sshPwauth : Option Bool := none

/-- Errors raised by the envelope parser: `NonAzureDataSource`
("source absent") and `BrokenAzureDataSource` ("source broken"). -/
inductive AzureErr where
  | nonAzure (msg : String)
  | broken (msg : String)
deriving DecidableEq, Repr

/-- Dispatch of one child of the `LinuxProvisioningConfigurationSet`
node, mirroring the `for child in lpcs.childNodes` loop body of
`read_azure_ovf`. -/
def foldOvfChild (lib : PyLib) (st : FoldState) (child : XNode) :
    Except AzureErr FoldState :=
  match child with
  | .text _ => .ok st
  | .elem localName attrs children =>
    let name := pyLower localName
    let value :=
      match children with
      | [.text s] => s
      | _ => ""
    let simple : Bool :=
      match children with
      | [.text _] => true
      | _ => false
    let base64Encoded : Bool :=
      match getAttr attrs "encoding" with
      | none => true
      | some "base64" => true
      | some _ => false
    if name = "userdata" ∨ name = "customdata" then
      if base64Encoded then
        .ok { st with ud := lib.b64decode (stripAllWhitespace value) }
      else
        .ok { st with ud := value }
    else if name = "username" then
      .ok { st with username := some value }
    else if name = "userpassword" then
      .ok { st with password := some value }
    else if name = "hostname" then
      .ok { st with localHostname := some value }
    else if name = "dscfg" then
      if base64Encoded then
        .ok { st with dscfgYaml := some (lib.loadYaml (lib.b64decode (stripAllWhitespace value))) }
      else
        .ok { st with dscfgYaml := some (lib.loadYaml value) }
    else if name = "ssh" then
      match load_azure_ovf_pubkeys child with
      | .ok ks => .ok { st with pubkeys := some ks }
      | .error m => .error (.broken m)
    else if name = "disablesshpasswordauthentication" then
      .ok { st with sshPwauth := some (lib.is_false value) }
    else if simple then
      if name = "seedfrom" then
        .ok { st with seedfrom := some value }
      else
        .ok { st with azureData := st.azureData ++ [(name, value)] }
    else
      .ok st

/-- The child-dispatch loop. -/
def foldOvfChildren (lib : PyLib) : FoldState → List XNode →
    Except AzureErr FoldState
  | st, [] => .ok st
  | st, c :: cs =>
    match foldOvfChild lib st c with
    | .ok st2 => foldOvfChildren lib st2 cs
    | .error e => .error e

/-- `_get_preprovisionedvm_cfg_value(platform_settings)`. -/
def _get_preprovisionedvm_cfg_value (lib : PyLib) (ps : XNode) : Bool :=
  match find_child ps (isElemNamed "PreprovisionedVm") with
  | [] => false
  | node :: _ => lib.translate_bool ((firstChildNodeValue node).getD "")

/-- `_get_preprovisionedvmtype_cfg_value(platform_settings)`:
`None` when the element is absent or empty, else the first child's node
value. -/
def _get_preprovisionedvmtype_cfg_value (ps : XNode) : Option String :=
  match find_child ps (isElemNamed "PreprovisionedVMType") with
  | [] => none
  | node :: _ =>
    match node with
    | .elem _ _ [] => none
    | _ => firstChildNodeValue node

/-- `_get_preprovisioning_cfgs(dom)`: the pair
(`PreprovisionedVm`, `PreprovisionedVMType`), defaulting to
(`False`, `None`). -/
def _get_preprovisioning_cfgs (lib : PyLib) (root : XNode) :
    Bool × Option String :=
  match find_child root (isElemNamed "PlatformSettingsSection") with
  | [] => (false, none)
  | pss :: _ =>
    match find_child pss (isElemNamed "PlatformSettings") with
    | [] => (false, none)
    | ps :: _ =>
      (_get_preprovisionedvm_cfg_value lib ps,
       _get_preprovisionedvmtype_cfg_value ps)

/-- Metadata mapping produced by a successful parse
(`local-hostname`, `seedfrom`, and the generic `azure_data` bag). -/
structure OvfMd where
  localHostname : Option String
  seedfrom : Option String
  azureData : List (String × String)
deriving DecidableEq, Repr

/-- The `default_user` config fragment. -/
structure DefaultUser where
  name : Option String
  lockPasswd : Option Bool
  passwd : Option String
deriving DecidableEq, Repr

/-- Config mapping produced by a successful parse. A field of value
`Option.none` models the key being absent from the Python dict; for
`preprovisionedVMType` the inner option models a stored Python `None`. -/
structure OvfCfg where
  preprovisionedVm : Option Bool := none
  preprovisionedVMType : Option (Option String) := none
  sshPwauth : Option Bool := none
  password : Option String := none
  dscfgYaml : Option String := none
  pubkeys : Option (List PubKey) := none
  defaultUser : Option DefaultUser := none
deriving DecidableEq, Repr

/-- Python truthiness of an optional string (`None` and `""` are falsy). -/
def strTruthy : Option String → Bool
  | none => false
  | some s => s ≠ ""

/-- The tail of `read_azure_ovf` after the child loop: build `defuser`,
derive `ssh_pwauth`, and merge in the pre-provisioning flags. -/
def assembleOvfResult (lib : PyLib) (st : FoldState)
    (prepro : Bool × Option String) : OvfMd × String × OvfCfg :=
  let md : OvfMd := ⟨st.localHostname, st.seedfrom, st.azureData⟩
  let hasUser := strTruthy st.username
  let hasPw := strTruthy st.password
  let pwNotRedacted := hasPw ∧ st.password ≠ some DEF_PASSWD_REDACTION
  let defuser : Option DefaultUser :=
    if hasUser ∨ hasPw then
      some
        ⟨if hasUser then st.username else none,
         if hasPw then some false else none,
         if pwNotRedacted then st.password.map lib.encrypt_pass else none⟩
    else none
  let cfg : OvfCfg :=
    { preprovisionedVm := some prepro.1
      preprovisionedVMType := some prepro.2
      sshPwauth :=
        match st.sshPwauth with
        | some b => some b
        | none => if hasPw then some true else none
      password :=
        if pwNotRedacted then st.password.map lib.encrypt_pass else none
      dscfgYaml := st.dscfgYaml
      pubkeys := st.pubkeys
      defaultUser := defuser }
  (md, st.ud, cfg)

/-- `read_azure_ovf(contents)` on an already-XML-parsed document with root
element `root`: the structural gate requiring exactly one
`ProvisioningSection` containing exactly one
`LinuxProvisioningConfigurationSet`, followed by the child fold. -/
def read_azure_ovf (lib : PyLib) (root : XNode) :
    Except AzureErr (OvfMd × String × OvfCfg) :=
  match find_child root (isElemNamed "ProvisioningSection") with
  | [] => .error (.nonAzure "No ProvisioningSection")
  | [provSection] =>
    match find_child provSection
        (isElemNamed "LinuxProvisioningConfigurationSet") with
    | [] => .error (.nonAzure "No LinuxProvisioningConfigurationSet")
    | [lpcs] =>
      if hasChildNodes lpcs then
        match lpcs with
        | .elem _ _ children =>
          match foldOvfChildren lib {} children with
          | .ok st =>
            .ok (assembleOvfResult lib st (_get_preprovisioning_cfgs lib root))
          | .error e => .error e
        | .text _ => .error (.broken "no child nodes of configuration set")
      else
        .error (.broken "no child nodes of configuration set")
    | _ => .error (.broken "found multiple LinuxProvisioningConfigurationSets")
  | _ => .error (.broken "found multiple ProvisioningSection items")

/-! ## PPS type determination (`_ppstype_from_ovf`) -/

/-- The `PPSType` enum; `NONE` has Python value `None`, the others the
strings `"Savable"`, `"Running"`, `"Unknown"`. -/
inductive PPSType where
  | NONE
  | SAVABLE
  | RUNNING
  | UNKNOWN
deriving DecidableEq, Repr

/-- The `PPSType(value)` enum lookup; `Option.none` models the
`ValueError` raised for an unrecognized value. The argument's
`Option.none` models Python `None` (the value of `PPSType.NONE`). -/
def ppstype_of_value : Option String → Option PPSType
  | Option.none => some .NONE
  | some "Savable" => some .SAVABLE
  | some "Running" => some .RUNNING
  | some "Unknown" => some .UNKNOWN
  | some _ => Option.none

/-- `DataSourceAzure._ppstype_from_ovf` over the crawl's `self.cfg`
(empty when no envelope was found, else the parse's config). -/
def _ppstype_from_ovf (cfg : OvfCfg) : PPSType :=
  if cfg.preprovisionedVm = some true then
    .RUNNING
  else
    let ppsValue : Option String :=
      match cfg.preprovisionedVMType with
      | Option.none => some "None"
      | some v => v
    match ppstype_of_value ppsValue with
    | some t => t
    | Option.none => .UNKNOWN

/-! ## Password redaction of the persisted envelope
(`write_files._redact_password`)

`_redact_password` round-trips the document through
`xml.etree.ElementTree` (`fromstring` / `tostring`), mutating the `text`
of every element whose tag contains `UserPassword`. The document is
embedded as the element tree `EtElem`; `ET.fromstring`/`ET.tostring` are
stdlib collaborators whose round trip is taken as exact, and
`et_tostring` below is the deterministic serialization. -/

/-- An `xml.etree.ElementTree` element: tag, optional text, children. -/
inductive EtElem where
  | mk (tag : String) (text : Option String) (children : List EtElem)

/-- `"UserPassword" in elem.tag` (Python substring containment). -/
def tagHasUserPassword (tag : String) : Bool :=
  (tag.splitOn "UserPassword").length > 1

/-- The text rewrite applied to each element of `root.iter()`:
if the tag contains `UserPassword` and the text is not already the
redaction token, replace the text with the token. -/
def redactText (tag : String) (tx : Option String) : Option String :=
  if tagHasUserPassword tag ∧ tx ≠ some DEF_PASSWD_REDACTION then
    some DEF_PASSWD_REDACTION
  else tx

/-- `_redact_password` as a transformation of the parsed element tree:
rewrite the text of every element in the tree. -/
def redactElem : EtElem → EtElem
  | .mk tag tx cs =>
    .mk tag (redactText tag tx) (cs.attach.map fun c => redactElem c.1)
termination_by e => sizeOf e
decreasing_by
  have h := List.sizeOf_lt_of_mem c.2
  simp only [EtElem.mk.sizeOf_spec]
  omega

/-- `ET.tostring`: a deterministic byte serialization of the tree. -/
def et_tostring : EtElem → String
  | .mk tag tx cs =>
    "<" ++ tag ++ ">" ++ tx.getD ""
      ++ String.join (cs.attach.map fun c => et_tostring c.1)
      ++ "</" ++ tag ++ ">"
termination_by e => sizeOf e
decreasing_by
  have h := List.sizeOf_lt_of_mem c.2
  simp only [EtElem.mk.sizeOf_spec]
  omega

/-! ## VM id derivation (`identity.convert_system_uuid_to_vm_id`)

Strings are handled as their character lists; `str.split("-")` /
`"-".join` and `bytearray.fromhex` / `bytearray.hex` (stdlib
collaborators) are embedded below — `fromhex` for whitespace-free input,
which is the only shape reachable from a split UUID group. -/

/-- `s.split(sep)` for a one-character separator: every occurrence splits,
empty pieces are kept, `"".split(sep) == [""]`. -/
def splitOnChar (sep : Char) : List Char → List (List Char)
  | [] => [[]]
  | c :: cs =>
    let rest := splitOnChar sep cs
    if c = sep then [] :: rest
    else
      match rest with
      | g :: gs => (c :: g) :: gs
      | [] => [[c]]

/-- `sep.join(groups)` for a one-character separator. -/
def joinWithChar (sep : Char) : List (List Char) → List Char
  | [] => []
  | [g] => g
  | g :: gs => g ++ sep :: joinWithChar sep gs

/-- Value of one hexadecimal digit, upper or lower case
(as accepted by `bytearray.fromhex`). -/
def hexDigitToNat? (c : Char) : Option Nat :=
  if '0' ≤ c ∧ c ≤ '9' then some (c.toNat - '0'.toNat)
  else if 'a' ≤ c ∧ c ≤ 'f' then some (c.toNat - 'a'.toNat + 10)
  else if 'A' ≤ c ∧ c ≤ 'F' then some (c.toNat - 'A'.toNat + 10)
  else none

/-- The lower-case hexadecimal digit for `n < 16`
(as produced by `bytearray.hex`). -/
def natToHexDigit (n : Nat) : Char :=
  if n < 10 then Char.ofNat ('0'.toNat + n)
  else Char.ofNat ('a'.toNat + n - 10)

/-- `bytearray.fromhex` on whitespace-free input: two hex digits per
byte, `none` on an odd count or a non-hex character (`ValueError`). -/
def bytesFromHex? : List Char → Option (List Nat)
  | [] => some []
  | [_] => none
  | c1 :: c2 :: rest => do
    let h ← hexDigitToNat? c1
    let l ← hexDigitToNat? c2
    let bs ← bytesFromHex? rest
    pure ((16 * h + l) :: bs)

/-- `bytearray.hex`: lower-case hexadecimal rendering. -/
def bytesToHex : List Nat → List Char
  | [] => []
  | b :: bs => natToHexDigit (b / 16) :: natToHexDigit (b % 16) :: bytesToHex bs

/-- `bytearray.fromhex(p)[::-1].hex()`: the per-group byte-order swap. -/
def swapHexEndianness? (g : List Char) : Option (List Char) :=
  (bytesFromHex? g).map fun bs => bytesToHex bs.reverse

/-- Character-list core of `convert_system_uuid_to_vm_id`: split on `-`,
swap the byte order of the first three groups, re-join. `none` models the
`RuntimeError` raised on `IndexError` (fewer than three groups) or
`ValueError` (a non-hex group). -/
def convert_uuid_chars (l : List Char) : Option (List Char) :=
  match splitOnChar '-' l with
  | p0 :: p1 :: p2 :: rest => do
    let q0 ← swapHexEndianness? p0
    let q1 ← swapHexEndianness? p1
    let q2 ← swapHexEndianness? p2
    pure (joinWithChar '-' (q0 :: q1 :: q2 :: rest))
  | _ => none

/-- `convert_system_uuid_to_vm_id(system_uuid)`. -/
def convert_system_uuid_to_vm_id (s : String) : Option String :=
  (convert_uuid_chars s.data).map fun l => ⟨l⟩

/-- The sixteen lower-case hexadecimal digits. -/
def lowerHexDigits : List Char :=
  (List.range 16).map natToHexDigit

/-- A non-empty, even-length, lower-case hexadecimal group. -/
def goodHexGroup (g : List Char) : Prop :=
  g ≠ [] ∧ g.length % 2 = 0 ∧ ∀ c ∈ g, c ∈ lowerHexDigits

/-! ## Ephemeral networking (`_setup_ephemeral_networking`,
`_teardown_ephemeral_networking`) -/

/-- Result of `perform_dhcp(iface)`: the lease's `unknown-245` vendor
option if the lease carries one, and the advertised static routes as
`(network, gateway)` pairs. -/
structure DhcpCtx where
  leaseUnknown245 : Option String
  staticRoutes : List (String × String)
deriving DecidableEq, Repr

/-- IMDS instance metadata as consulted by the orchestrator: only the
`extended.compute.ppsType` field is inspected by the code under proof;
`ppsType = none` models the key being absent. -/
structure Imds where
  ppsType : Option String
deriving DecidableEq, Repr

/-- OS collaborators consulted during one bring-up call:
`find_candidate_nics` (after the wait-for-NIC loop), `perform_dhcp`,
`WALinuxAgentShim.get_ip_from_lease_value`, and the zero-retry
`get_imds_metadata` connectivity probe. -/
structure NetEnv where
  candidateNics : List String
  dhcp : String → DhcpCtx
  ipFromLease : String → String
  imdsProbe : String → Option Imds

/-- The networking-related fields of the datasource:
`_ephemeral_dhcp_ctx` (a dict, modelled as an insertion-ordered
association list) and `_wireserver_address`. -/
structure NetState where
  dhcpMap : List (String × DhcpCtx)
  wireserver : String

/-- `iface in self._ephemeral_dhcp_ctx`. -/
def containsKey (m : List (String × DhcpCtx)) (k : String) : Bool :=
  m.any (·.1 = k)

/-- The `for iface in ifaces` loop of `_setup_ephemeral_networking`:
skip interfaces already tracked; otherwise perform DHCP, track the
context, update the wireserver address from the vendor option, stop if
the NIC is primary (static route to IMDS or wireserver) or if the IMDS
probe yields metadata. -/
def setupLoop (env : NetEnv) : NetState → List String →
    Option Imds × NetState
  | st, [] => (none, st)
  | st, iface :: rest =>
    if containsKey st.dhcpMap iface then
      setupLoop env st rest
    else
      let ctx := env.dhcp iface
      let wire :=
        match ctx.leaseUnknown245 with
        | some v => env.ipFromLease v
        | none => st.wireserver
      let st2 : NetState := ⟨st.dhcpMap ++ [(iface, ctx)], wire⟩
      let routeNetworks := ctx.staticRoutes.map (·.1)
      if routeNetworks.contains "169.254.169.254/32"
          ∨ routeNetworks.contains (st2.wireserver ++ "/32") then
        (none, st2)
      else
        match env.imdsProbe iface with
        | some md => (some md, st2)
        | none => setupLoop env st2 rest

/-- `_setup_ephemeral_networking`. The source first waits (forever, if
need be) until at least one candidate NIC exists; an environment with no
candidates therefore never returns, modelled as `none`. -/
def _setup_ephemeral_networking (env : NetEnv) (st : NetState) :
    Option (Option Imds × NetState) :=
  if env.candidateNics.isEmpty then none
  else some (setupLoop env st env.candidateNics)

/-- `_teardown_ephemeral_networking`: `clean_network()` every tracked
context (returned here in iteration order as the released contexts) and
reset the tracking dict to empty. -/
def _teardown_ephemeral_networking (st : NetState) :
    List (String × DhcpCtx) × NetState :=
  (st.dhcpMap, { st with dhcpMap := [] })

/-! ## Provisioning orchestrator (`_execute_pps`, `crawl_metadata`)

The orchestrator is embedded as a function over the datasource state
extended with scripted answers for its collaborators (successive
`_report_ready` outcomes, per-call network environments, successive
`get_imds_metadata` results). Externally visible actions are recorded in
an event trace. -/

/-- Observable orchestrator actions. -/
inductive Ev where
  | loadLocal (found : Bool)
  | setupNet
  | teardownNet
  | reportReady (ok : Bool)
  | writeMarker
  | waitMedia
  | waitNicAttach
  | pollFetch (ok : Bool)
  | reparseOvf
  | fetchImds
  | cleanupMarker
deriving DecidableEq, Repr

/-- Outcome of one `_fetch_imds_data` call in the reprovision poll:
success with the returned envelope, a `UrlError` with an HTTP code, or a
`UrlError` with no code (connection-level failure). -/
inductive ReproOutcome where
  | ok (payload : XNode)
  | errCode (code : Nat)
  | errNoCode

/-- Datasource state (the fields the claims concern) plus scripted
collaborator answers. -/
structure AzState where
  net : NetState
  /-- `REPORTED_READY_MARKER_FILE` exists. -/
  marker : Bool
  negotiated : Bool
  imdsMd : Option Imds
  ovf : Option XNode
  cfg : OvfCfg
  /-- `bool(self.metadata)`. -/
  mdTruthy : Bool
  /-- `bool(self.userdata_raw)`. -/
  udTruthy : Bool
  seedIsIMDS : Bool
  /-- netlink socket creation succeeds. -/
  socketOk : Bool
  /-- scripted `_report_ready` outcomes. -/
  readyResults : List Bool
  /-- scripted environments for successive bring-up calls. -/
  netEnvs : List NetEnv
  /-- scripted `get_imds_metadata()` results. -/
  imdsResults : List (Option Imds)

/-- Result of running an orchestrator fragment: normal completion,
a raised exception, or an unbounded wait that the scripted environment
never satisfies. Each carries the event trace produced. -/
inductive RunResult where
  | ok (s : AzState) (tr : List Ev)
  | exc (msg : String) (tr : List Ev)
  | hang (tr : List Ev)

/-- The event trace of a run, whatever its outcome. -/
def runTrace : RunResult → List Ev
  | .ok _ tr => tr
  | .exc _ tr => tr
  | .hang tr => tr

/-- The final `marker` state of a completed run. -/
def runMarker : RunResult → Option Bool
  | .ok s _ => some s.marker
  | _ => none

/-- `self._report_ready()` (never raises; returns the success flag).
An unscripted call is treated as a failed report. -/
def reportReadyStep (s : AzState) : Bool × AzState :=
  match s.readyResults with
  | [] => (false, s)
  | b :: rest => (b, { s with readyResults := rest })

/-- One `self._setup_ephemeral_networking()` call, consuming the next
scripted network environment (none left: modelled as a hang, like an
environment that never produces a NIC). -/
def setupStep (s : AzState) : Option (Option Imds × AzState) :=
  match s.netEnvs with
  | [] => none
  | env :: rest =>
    match _setup_ephemeral_networking env s.net with
    | none => none
    | some (md, net2) => some (md, { s with net := net2, netEnvs := rest })

/-- One `self._teardown_ephemeral_networking()` call. -/
def teardownStep (s : AzState) : AzState :=
  { s with net := (_teardown_ephemeral_networking s.net).2 }

/-- One `get_imds_metadata()` call, consuming the next scripted result
(unscripted: no metadata). -/
def imdsFetchStep (s : AzState) : Option Imds × AzState :=
  match s.imdsResults with
  | [] => (none, s)
  | r :: rest => (r, { s with imdsResults := rest })

/-- The `while True` loop of `_poll_for_reprovision_data`: fetch until a
payload is returned; a failure without an HTTP code restarts networking
(teardown then bring-up) before the next attempt. `none` models an
outcome script that never succeeds (the loop never exits). -/
def pollFetchLoop (s : AzState) : List ReproOutcome →
    Option (XNode × AzState × List Ev)
  | [] => none
  | .ok payload :: _ => some (payload, s, [Ev.pollFetch true])
  | .errCode _ :: rest =>
    match pollFetchLoop s rest with
    | some (p, s2, tr) => some (p, s2, Ev.pollFetch false :: tr)
    | none => none
  | .errNoCode :: rest =>
    let s2 := teardownStep s
    match setupStep s2 with
    | none => none
    | some (_, s3) =>
      match pollFetchLoop s3 rest with
      | some (p, s4, tr) =>
        some (p, s4, Ev.pollFetch false :: Ev.teardownNet :: Ev.setupNet :: tr)
      | none => none

/-- `_poll_for_reprovision_data`: poll, store the payload in `self._ovf`,
and re-parse it into metadata/user-data/config (parse errors
propagate). -/
def _poll_for_reprovision_data (lib : PyLib) (s : AzState)
    (outcomes : List ReproOutcome) : RunResult :=
  match pollFetchLoop s outcomes with
  | none => .hang []
  | some (payload, s2, tr) =>
    match read_azure_ovf lib payload with
    | .ok (_, ud, cfg) =>
      .ok { s2 with ovf := some payload, mdTruthy := true,
                    udTruthy := ud ≠ "", cfg := cfg }
        (tr ++ [Ev.reparseOvf])
    | .error (.nonAzure m) => .exc m (tr ++ [Ev.reparseOvf])
    | .error (.broken m) => .exc m (tr ++ [Ev.reparseOvf])

/-- The events of `_wait_to_resume_pps`, reached only when the netlink
socket was opened: Running waits for media disconnect/reconnect, Savable
for a NIC attach, other PPS types do not block. -/
def waitEvents (socketOk : Bool) (pps : PPSType) : List Ev :=
  if socketOk then
    match pps with
    | .RUNNING => [Ev.waitMedia]
    | .SAVABLE => [Ev.waitNicAttach]
    | _ => []
  else []

/-- The tail of `_execute_pps` after the marker-gated phase: poll the
reprovision-data endpoint, then fetch IMDS metadata if still missing. -/
def afterPpsWait (lib : PyLib) (s : AzState) (tr : List Ev)
    (outcomes : List ReproOutcome) : RunResult :=
  match _poll_for_reprovision_data lib s outcomes with
  | .ok s2 tr2 =>
    match s2.imdsMd with
    | some _ => .ok s2 (tr ++ tr2)
    | none =>
      let r := imdsFetchStep s2
      .ok { r.2 with imdsMd := r.1 } (tr ++ tr2 ++ [Ev.fetchImds])
  | .exc m tr2 => .exc m (tr ++ tr2)
  | .hang tr2 => .hang (tr ++ tr2)

/-- `DataSourceAzure._execute_pps(pps_type)`. -/
def _execute_pps (lib : PyLib) (freebsd : Bool) (pps : PPSType)
    (s : AzState) (outcomes : List ReproOutcome) : RunResult :=
  if freebsd then .exc "Free BSD is not supported for PPS VMs" []
  else if s.marker then
    afterPpsWait lib s [] outcomes
  else
    let r1 := reportReadyStep s
    let s2 := { r1.2 with marker := true }
    let tr :=
      Ev.reportReady r1.1 :: Ev.writeMarker :: waitEvents s.socketOk pps
    match setupStep s2 with
    | none => .hang tr
    | some (md, s3) =>
      afterPpsWait lib { s3 with imdsMd := md } (tr ++ [Ev.setupNet]) outcomes

/-- `_ppstype_from_imds`, consulted when the envelope leaves the PPS type
unknown; a missing key or unrecognized value yields `UNKNOWN`. Consulting
it with no IMDS metadata at all subscripts `None` and raises. -/
def ppstypeFromImdsStep (md : Option Imds) : Except String PPSType :=
  match md with
  | none => .error "TypeError: NoneType is not subscriptable"
  | some m =>
    .ok <|
      match m.ppsType with
      | none => .UNKNOWN
      | some v => (ppstype_of_value (some v)).getD .UNKNOWN

/-- Step 1 of `crawl_metadata`: find and read the local OVF; absence (or
a non-Azure source) resets the seed to IMDS, a broken envelope is
fatal. -/
def crawl_load_local (lib : PyLib) (localOvf : Option XNode)
    (s : AzState) : Except (String × List Ev) (AzState × List Ev) :=
  match localOvf with
  | some root =>
    match read_azure_ovf lib root with
    | .ok (_, ud, cfg) =>
      .ok ({ s with seedIsIMDS := false, ovf := some root,
                    mdTruthy := true, udTruthy := ud ≠ "", cfg := cfg },
           [Ev.loadLocal true])
    | .error (.broken m) => .error (m, [Ev.loadLocal false])
    | .error (.nonAzure _) =>
      .ok ({ s with seedIsIMDS := true, ovf := none, cfg := {} },
           [Ev.loadLocal false])
  | none =>
    .ok ({ s with seedIsIMDS := true, ovf := none, cfg := {} },
         [Ev.loadLocal false])

/-- PPS-type determination in `crawl_metadata`: envelope first, IMDS
extended fields only when the envelope leaves it unknown. -/
def crawl_determine_pps (s3 : AzState) : Except String PPSType :=
  let ppsOvf := _ppstype_from_ovf s3.cfg
  if ppsOvf = .UNKNOWN then ppstypeFromImdsStep s3.imdsMd
  else .ok ppsOvf

/-- Final phase of `crawl_metadata`: fail if IMDS was the seed but is
missing, report ready unless already negotiated, delete the marker and
tear down networking. -/
def crawl_finish (s4 : AzState) (tr4 : List Ev) : RunResult :=
  if s4.seedIsIMDS ∧ s4.imdsMd = none then
    .exc "No Azure metadata found" tr4
  else
    let (s5, tr5) :=
      if ¬ s4.negotiated then
        let r := reportReadyStep s4
        ({ r.2 with negotiated := true }, tr4 ++ [Ev.reportReady r.1])
      else (s4, tr4)
    let s6 := teardownStep { s5 with marker := false }
    .ok s6 (tr5 ++ [Ev.cleanupMarker, Ev.teardownNet])

/-- `crawl_metadata` after a metadata source is secured: the no-source
check, PPS determination, the PPS protocol if applicable, and the final
phase. -/
def crawl_after_source (lib : PyLib) (freebsd : Bool) (s3 : AzState)
    (tr3 : List Ev) (outcomes : List ReproOutcome) : RunResult :=
  if ¬ s3.mdTruthy ∧ s3.imdsMd = none then
    .exc "No OVF or IMDS available" tr3
  else
    match crawl_determine_pps s3 with
    | .error m => .exc m tr3
    | .ok pps =>
      let afterPps : RunResult :=
        if pps ≠ .NONE ∨ s3.marker then
          match _execute_pps lib freebsd pps s3 outcomes with
          | .ok s4 tr4 => .ok s4 (tr3 ++ tr4)
          | .exc m tr4 => .exc m (tr3 ++ tr4)
          | .hang tr4 => .hang (tr3 ++ tr4)
        else .ok s3 tr3
      match afterPps with
      | .exc m tr4 => .exc m tr4
      | .hang tr4 => .hang tr4
      | .ok s4 tr4 => crawl_finish s4 tr4

/-- `DataSourceAzure.crawl_metadata`. `localOvf` is the envelope document
found by `_load_local_metadata_source` (if any); the IMDS-merge,
userdata-from-IMDS and minimal-OVF synthesis steps touch none of the
state modelled here and are elided. -/
def crawl_metadata (lib : PyLib) (freebsd : Bool) (localOvf : Option XNode)
    (s : AzState) (outcomes : List ReproOutcome) : RunResult :=
  -- Find and read local OVF, if available; otherwise rely on IMDS.
  match crawl_load_local lib localOvf s with
  | .error (m, tr) => .exc m tr
  | .ok (s1, tr1) =>
    -- Bring up networking on primary NIC.
    match setupStep s1 with
    | none => .hang tr1
    | some (md, s2) =>
      let s2 := { s2 with imdsMd := md }
      let tr2 := tr1 ++ [Ev.setupNet]
      -- Query IMDS data, if needed.
      let (s3, tr3) :=
        match s2.imdsMd with
        | some _ => (s2, tr2)
        | none =>
          let r := imdsFetchStep s2
          ({ r.2 with imdsMd := r.1 }, tr2 ++ [Ev.fetchImds])
      crawl_after_source lib freebsd s3 tr3 outcomes

/-- Number of fabric ready signals in a trace. -/
def countReady (tr : List Ev) : Nat :=
  tr.countP fun e =>
    match e with
    | .reportReady _ => true
    | _ => false

/-- Every ReadyMarker write in the trace is preceded by a ready-report
attempt: in every prefix, a `writeMarker` event implies an earlier
`reportReady` event. -/
def markerAfterReport (tr : List Ev) : Prop :=
  ∀ n, Ev.writeMarker ∈ tr.take n → ∃ b, Ev.reportReady b ∈ tr.take n

/-- Number of ReadyMarker writes in a trace. -/
def countMarkerWrites (tr : List Ev) : Nat :=
  tr.countP fun e =>
    match e with
    | .writeMarker => true
    | _ => false

/-- Events that can appear after the marker-gated phase of
`_execute_pps` (polling, network restarts and the final IMDS fill). -/
def ppsTailEv : Ev → Bool
  | .pollFetch _ => true
  | .teardownNet => true
  | .setupNet => true
  | .reparseOvf => true
  | .fetchImds => true
  | _ => false

/-- The trace of a normally-completed run. -/
def runOkTrace : RunResult → Option (List Ev)
  | .ok _ tr => some tr
  | _ => none

/-! ### Concrete scenario data for witnesses and counterexamples -/

/-- Stub pure-Python collaborators for concrete runs. -/
def libW : PyLib :=
  { b64decode := id
    loadYaml := id
    is_false := fun s => s = "false"
    translate_bool := fun s => s = "true"
    encrypt_pass := fun s => s ++ "#hashed" }

/-- A concrete envelope: one provisioning section with one
Linux-provisioning-configuration set, and platform settings declaring
`PreprovisionedVm = true`. -/
def docPpsW : XNode :=
  .elem "Environment" []
    [.elem "ProvisioningSection" []
      [.elem "LinuxProvisioningConfigurationSet" []
        [.elem "HostName" [] [.text "host1"]]],
     .elem "PlatformSettingsSection" []
      [.elem "PlatformSettings" []
        [.elem "PreprovisionedVm" [] [.text "true"]]]]

/-- A DHCP context advertising a /32 route to IMDS (a primary NIC). -/
def dhcpCtxW : DhcpCtx :=
  ⟨none, [("169.254.169.254/32", "0.0.0.0")]⟩

/-- A network environment with a single primary candidate NIC. -/
def netEnvW : NetEnv :=
  { candidateNics := ["eth0"]
    dhcp := fun _ => dhcpCtxW
    ipFromLease := id
    imdsProbe := fun _ => none }

/-- Initial boot state for a scripted crawl: no marker, not negotiated,
ready reports succeed. -/
def sW : AzState :=
  { net := ⟨[], "168.63.129.16"⟩
    marker := false
    negotiated := false
    imdsMd := none
    ovf := none
    cfg := {}
    mdTruthy := false
    udTruthy := false
    seedIsIMDS := true
    socketOk := true
    readyResults := [true, true]
    netEnvs := [netEnvW, netEnvW]
    imdsResults := [some ⟨none⟩, some ⟨none⟩]
    }

/-- Like `sW` but every `_report_ready` attempt fails (fabric
unreachable). -/
def sFailW : AzState :=
  { sW with readyResults := [false, false] }

/-- A provisioning section with no configuration set, for concrete
parses. -/
def provEmptyW : XNode := .elem "ProvisioningSection" [] []

/-- A document whose (sole) provisioning section has no
Linux-provisioning-configuration set. -/
def docNoLpcsW : XNode := .elem "Environment" [] [provEmptyW]

/-- A document with two provisioning sections. -/
def docTwoProvW : XNode := .elem "Environment" [] [provEmptyW, provEmptyW]

/-- Config parsed from `docPpsW`. -/
def cfgPpsW : OvfCfg :=
  { preprovisionedVm := some true, preprovisionedVMType := some none }

/-- Network state after bringing up the primary NIC. -/
def netUpW : NetState := ⟨[("eth0", dhcpCtxW)], "168.63.129.16"⟩

/-- Crawl state of the `sW` scenario after source location, bring-up and
the IMDS fetch. -/
def s3W : AzState :=
  { net := netUpW
    marker := false
    negotiated := false
    imdsMd := some ⟨none⟩
    ovf := some docPpsW
    cfg := cfgPpsW
    mdTruthy := true
    udTruthy := false
    seedIsIMDS := false
    socketOk := true
    readyResults := [true, true]
    netEnvs := [netEnvW]
    imdsResults := [some ⟨none⟩] }

/-- Trace of the `sW` scenario up to the PPS phase. -/
def tr3W : List Ev := [Ev.loadLocal true, Ev.setupNet, Ev.fetchImds]

/-- State of the `sW` scenario entering the reprovision poll: marker
written, DHCP refreshed (no new NICs), IMDS metadata cleared by the
refresh. -/
def sPW : AzState :=
  { s3W with marker := true, imdsMd := none, readyResults := [true],
             netEnvs := [] }

/-- State of the `sW` scenario after the PPS phase. -/
def s6W : AzState :=
  { sPW with imdsMd := some ⟨none⟩, imdsResults := [] }

/-! # Theorems -/

/-- Helper: the NTFS-candidate tail of the gate allows reformatting iff
the candidate is NTFS and either mounts with no non-placeholder files or
fails to mount for lack of NTFS support. -/
theorem check_ntfs_candidate_true_iff (env : DiskEnv) (cand : Nat × String) :
    (check_ntfs_candidate env cand).1 = true ↔
      (_has_ntfs_filesystem env cand.2 = true ∧
        (env.mount cand.2 = MountOutcome.failNoNtfsSupport ∨
          ∃ files, env.mount cand.2 = MountOutcome.ok files ∧
            count_files files = 0)) := by
  unfold check_ntfs_candidate
  cases hntfs : _has_ntfs_filesystem env cand.2 <;> simp [hntfs]
  cases hm : env.mount cand.2 <;> simp [hm]
  rename_i files
  by_cases hc : count_files files = 0 <;> simp [hc]

/-- C1: `can_dev_be_reformatted` refuses when the preserve flag is set,
when the device path does not exist, when there are zero or more than two
partitions, or when the candidate partition (the second of two, else the
sole one) is not NTFS; it allows exactly when that NTFS candidate either
mounts with zero files other than the placeholder or fails to mount
solely because NTFS support is unavailable. -/
theorem can_dev_be_reformatted_gate (env : DiskEnv) (devpath : String)
    (preserve_ntfs : Bool) :
    (can_dev_be_reformatted env devpath preserve_ntfs).1 = true ↔
      (preserve_ntfs = false ∧ env.pathExists devpath = true ∧
        ∃ cand,
          (_partitions_on_device env devpath = [cand] ∨
            ∃ p1, _partitions_on_device env devpath = [p1, cand]) ∧
          _has_ntfs_filesystem env cand.2 = true ∧
          (env.mount cand.2 = MountOutcome.failNoNtfsSupport ∨
            ∃ files, env.mount cand.2 = MountOutcome.ok files ∧
              count_files files = 0)) := by
  unfold can_dev_be_reformatted
  cases preserve_ntfs with
  | true => simp
  | false =>
    cases he : env.pathExists devpath with
    | false => simp [he]
    | true =>
      simp only [he, Bool.true_eq_false, false_and, true_and,
        Bool.not_true, Bool.false_eq_true, if_false]
      rcases hparts : _partitions_on_device env devpath with
        _ | ⟨c, _ | ⟨d, _ | ⟨e, rest⟩⟩⟩ <;>
          simp [hparts, check_ntfs_candidate_true_iff]

/-- C9: whenever the parsed envelope configuration has
`PreprovisionedVm = True`, the PPS type determined from the envelope is
`Running`, regardless of `PreprovisionedVMType`. -/
theorem ppstype_from_ovf_flag_precedence (cfg : OvfCfg)
    (h : cfg.preprovisionedVm = some true) :
    _ppstype_from_ovf cfg = PPSType.RUNNING := by
  simp [_ppstype_from_ovf, h]

/-- Witness for C9 at the anomalous combination
`PreprovisionedVm=true`, `PreprovisionedVMType=Savable`. -/
theorem ppstype_from_ovf_flag_precedence_witness :
    ({ preprovisionedVm := some true,
       preprovisionedVMType := some (some "Savable") } : OvfCfg).preprovisionedVm
        = some true ∧
    _ppstype_from_ovf
      { preprovisionedVm := some true,
        preprovisionedVMType := some (some "Savable") } = PPSType.RUNNING :=
  ⟨rfl, ppstype_from_ovf_flag_precedence _ rfl⟩

/-- C5: envelope parsing fails with a source-absent error
(`NonAzureDataSource`) on zero provisioning sections or zero
Linux-provisioning-configuration sections, fails with a source-broken
error (`BrokenAzureDataSource`) on more than one of either, and returns
a result only when exactly one provisioning section contains exactly one
Linux-provisioning-configuration section. -/
theorem read_azure_ovf_section_gate (lib : PyLib) (root : XNode) :
    (find_child root (isElemNamed "ProvisioningSection") = [] →
      read_azure_ovf lib root =
        .error (.nonAzure "No ProvisioningSection")) ∧
    ((find_child root (isElemNamed "ProvisioningSection")).length > 1 →
      ∃ m, read_azure_ovf lib root = .error (.broken m)) ∧
    (∀ ps, find_child root (isElemNamed "ProvisioningSection") = [ps] →
      find_child ps (isElemNamed "LinuxProvisioningConfigurationSet") = [] →
      read_azure_ovf lib root =
        .error (.nonAzure "No LinuxProvisioningConfigurationSet")) ∧
    (∀ ps, find_child root (isElemNamed "ProvisioningSection") = [ps] →
      (find_child ps
          (isElemNamed "LinuxProvisioningConfigurationSet")).length > 1 →
      ∃ m, read_azure_ovf lib root = .error (.broken m)) ∧
    (∀ res, read_azure_ovf lib root = .ok res →
      ∃ ps lpcs,
        find_child root (isElemNamed "ProvisioningSection") = [ps] ∧
        find_child ps (isElemNamed "LinuxProvisioningConfigurationSet")
          = [lpcs]) := by
  refine ⟨?_, ?_, ?_, ?_, ?_⟩
  · intro h
    simp [read_azure_ovf, h]
  · intro h
    rcases hp : find_child root (isElemNamed "ProvisioningSection") with
      _ | ⟨ps, _ | ⟨ps2, pss⟩⟩
    · rw [hp] at h; simp at h
    · rw [hp] at h; simp at h
    · exact ⟨"found multiple ProvisioningSection items",
        by simp [read_azure_ovf, hp]⟩
  · intro ps hp hl
    simp [read_azure_ovf, hp, hl]
  · intro ps hp hl
    rcases hq : find_child ps
        (isElemNamed "LinuxProvisioningConfigurationSet") with
      _ | ⟨l, _ | ⟨l2, ls⟩⟩
    · rw [hq] at hl; simp at hl
    · rw [hq] at hl; simp at hl
    · exact ⟨"found multiple LinuxProvisioningConfigurationSets",
        by simp [read_azure_ovf, hp, hq]⟩
  · intro res h
    rcases hp : find_child root (isElemNamed "ProvisioningSection") with
      _ | ⟨ps, _ | ⟨ps2, pss⟩⟩
    · simp [read_azure_ovf, hp] at h
    · rcases hq : find_child ps
          (isElemNamed "LinuxProvisioningConfigurationSet") with
        _ | ⟨l, _ | ⟨l2, ls⟩⟩
      · simp [read_azure_ovf, hp, hq] at h
      · exact ⟨ps, l, rfl, hq⟩
      · simp [read_azure_ovf, hp, hq] at h
    · simp [read_azure_ovf, hp] at h

/-- Witness for C5: a document without provisioning sections is
source-absent, one with two is source-broken, and a sole provisioning
section without a configuration set is source-absent. -/
theorem read_azure_ovf_section_gate_witness :
    read_azure_ovf libW (.elem "Environment" [] []) =
      .error (.nonAzure "No ProvisioningSection") ∧
    (∃ m, read_azure_ovf libW docTwoProvW = .error (.broken m)) ∧
    read_azure_ovf libW docNoLpcsW =
      .error (.nonAzure "No LinuxProvisioningConfigurationSet") :=
  ⟨(read_azure_ovf_section_gate libW (.elem "Environment" [] [])).1 rfl,
   (read_azure_ovf_section_gate libW docTwoProvW).2.1 (by decide),
   (read_azure_ovf_section_gate libW docNoLpcsW).2.2.1 provEmptyW rfl rfl⟩

/-- Unfolding of `cb_retries` over one attempt. -/
theorem cb_retries_cons (s : CbState) (e : UrlErr) (es : List UrlErr) :
    cb_retries s (e :: es) =
      (exception_cb s e).retry :: cb_retries (exception_cb s e).state es :=
  rfl

/-- Helper: over consecutive connection-level failures, the callback
permits exactly the remaining (non-negative) budget of retries,
decrementing by one per attempt. -/
theorem cb_retries_conn_budget (errs : List UrlErr) :
    ∀ (s : CbState) (b : Int), s.connBudget = some b → 0 ≤ b →
      (∀ e ∈ errs, e.code = none) →
      cb_retries s errs =
        (List.range errs.length).map fun i : Nat => decide ((i : Int) < b) := by
  induction errs with
  | nil =>
    intro s b _ _ _
    simp [cb_retries, cb_run]
  | cons e es ih =>
    intro s b hs hb hcodes
    have hec : e.code = none := hcodes e (by simp)
    have hcodes' : ∀ x ∈ es, x.code = none := fun x hx => hcodes x (by simp [hx])
    rw [cb_retries_cons]
    by_cases hb0 : b = 0
    · subst hb0
      have hcb : exception_cb s e =
          ⟨false, (exception_cb s e).logged,
           ⟨s.errorCount + 1, (exception_cb s e).state.lastLog,
            (exception_cb s e).state.threshold, some 0⟩⟩ := by
        simp [exception_cb, hec, hs, budgetTruthy, codeFalsy]
      rw [hcb]
      rw [ih _ 0 rfl le_rfl hcodes']
      rw [List.length_cons, List.range_succ_eq_map, List.map_cons,
        List.map_map]
      refine congrArg₂ _ (by simp) (List.map_congr_left fun i _ => ?_)
      simp only [Function.comp_apply]
      refine decide_eq_decide.mpr ?_
      omega
    · have hcb : exception_cb s e =
          ⟨b - 1 ≥ 0, (exception_cb s e).logged,
           ⟨s.errorCount + 1, (exception_cb s e).state.lastLog,
            (exception_cb s e).state.threshold, some (b - 1)⟩⟩ := by
        simp [exception_cb, hec, hs, budgetTruthy, codeFalsy, hb0]
      rw [hcb]
      rw [ih _ (b - 1) rfl (by omega) hcodes']
      rw [List.length_cons, List.range_succ_eq_map, List.map_cons,
        List.map_map]
      refine congrArg₂ _ ?_ (List.map_congr_left fun i _ => ?_)
      · show (decide (b - 1 ≥ 0)) = decide ((0 : Int) < b)
        refine decide_eq_decide.mpr ?_
        omega
      · simp only [Function.comp_apply]
        refine decide_eq_decide.mpr ?_
        omega

/-- Helper: one connection-level failure with a non-zero budget retries
iff the decremented budget is still non-negative, and decrements it. -/
theorem exception_cb_conn_step (s : CbState) (e : UrlErr) (b : Int)
    (hs : s.connBudget = some b) (he : e.code = none) (hb : b ≠ 0) :
    (exception_cb s e).retry = decide (b - 1 ≥ 0) ∧
      (exception_cb s e).state.connBudget = some (b - 1) := by
  refine ⟨?_, ?_⟩ <;>
    simp [exception_cb, hs, he, budgetTruthy, codeFalsy, hb]

/-- Helper: a connection-level failure with budget zero stops. -/
theorem exception_cb_conn_exhausted (s : CbState) (e : UrlErr)
    (hs : s.connBudget = some 0) (he : e.code = none) :
    (exception_cb s e).retry = false := by
  simp [exception_cb, hs, he, budgetTruthy, codeFalsy]

/-- Helper: one spec-modelled fetch step that retries. -/
theorem fetch_loop_cons_retry (s : CbState) (e : UrlErr)
    (l : List (Except UrlErr String)) (retries : Nat)
    (h : (exception_cb s e).retry = true) (hr : retries ≠ 0) :
    fetch_loop s retries (.error e :: l) =
      ((fetch_loop (exception_cb s e).state (retries - 1) l).1 + 1,
        (fetch_loop (exception_cb s e).state (retries - 1) l).2) := by
  simp [fetch_loop, h, hr]

/-- Helper: one spec-modelled fetch step that stops. -/
theorem fetch_loop_cons_stop (s : CbState) (e : UrlErr)
    (l : List (Except UrlErr String)) (retries : Nat)
    (h : (exception_cb s e).retry = false) :
    fetch_loop s retries (.error e :: l) = (1, .error e) := by
  simp [fetch_loop, h]

/-- C3: per failed IMDS attempt, the retry decision retries
unconditionally on HTTP 404, 410, 429 and 500; never retries on
HTTP 400; and on errors with no HTTP status permits at most the
caller-supplied connection-error budget of retries, decrementing per such
attempt — with a budget of 2, three consecutive connection errors exhaust
the budget and the fetch fails after exactly 3 requests, without a
fourth. -/
theorem imds_retry_policy :
    (∀ (s : CbState) (e : UrlErr),
        (e.code = some 404 ∨ e.code = some 410 ∨ e.code = some 429 ∨
          e.code = some 500) →
        (exception_cb s e).retry = true) ∧
    (∀ (s : CbState) (e : UrlErr), e.code = some 400 →
        (exception_cb s e).retry = false) ∧
    (∀ (k : Nat) (errs : List UrlErr), (∀ e ∈ errs, e.code = none) →
        cb_retries (initCbState (some (k : Int))) errs =
          (List.range errs.length).map fun i : Nat => decide (i < k)) ∧
    (∀ (e1 e2 e3 : UrlErr) (rest : List (Except UrlErr String))
        (retries : Nat),
        e1.code = none → e2.code = none → e3.code = none → 3 ≤ retries →
        fetch_loop (initCbState (some 2)) retries
          (.error e1 :: .error e2 :: .error e3 :: rest) =
          (3, .error e3)) := by
  refine ⟨?_, ?_, ?_, ?_⟩
  · intro s e h
    rcases h with h | h | h | h <;> simp [exception_cb, h]
  · intro s e h
    simp [exception_cb, h, codeFalsy]
  · intro k errs hcodes
    rw [cb_retries_conn_budget errs (initCbState (some (k : Int))) k rfl
      (Int.ofNat_nonneg k) hcodes]
    exact List.map_congr_left fun i _ => decide_eq_decide.mpr Int.ofNat_lt
  · intro e1 e2 e3 rest retries h1 h2 h3 hr
    have c1 := exception_cb_conn_step (initCbState (some 2)) e1 2 rfl h1
      (by omega)
    have c2 := exception_cb_conn_step _ e2 1 c1.2 h2 (by omega)
    have hb0 : (exception_cb (exception_cb (initCbState (some 2)) e1).state
        e2).state.connBudget = some 0 := by
      rw [c2.2]
      norm_num
    have c3 := exception_cb_conn_exhausted _ e3 hb0 h3
    rw [fetch_loop_cons_retry _ _ _ _ (by rw [c1.1]; decide) (by omega)]
    rw [fetch_loop_cons_retry _ _ _ _ (by rw [c2.1]; decide) (by omega)]
    rw [fetch_loop_cons_stop _ _ _ _ c3]

/-- Witness for C3: retry on 404, stop on 400, the budget-2 schedule over
three connection errors is retry-retry-stop, and the scripted fetch stops
after the third request. -/
theorem imds_retry_policy_witness :
    (exception_cb (initCbState none) ⟨some 404, "x"⟩).retry = true ∧
    (exception_cb (initCbState none) ⟨some 400, "x"⟩).retry = false ∧
    cb_retries (initCbState (some 2)) [⟨none, "x"⟩, ⟨none, "x"⟩, ⟨none, "x"⟩]
      = [true, true, false] ∧
    fetch_loop (initCbState (some 2)) 3
      [.error ⟨none, "x"⟩, .error ⟨none, "y"⟩, .error ⟨none, "z"⟩] =
      (3, .error ⟨none, "z"⟩) := by
  refine ⟨imds_retry_policy.1 _ _ (Or.inl rfl),
    imds_retry_policy.2.1 _ _ rfl, ?_,
    imds_retry_policy.2.2.2 _ _ _ _ 3 rfl rfl rfl (by omega)⟩
  have h := imds_retry_policy.2.2.1 2
    [⟨none, "x"⟩, ⟨none, "x"⟩, ⟨none, "x"⟩] (by simp)
  exact h.trans (by decide)

/-- Unfolding of `cb_logs` over one attempt. -/
theorem cb_logs_cons (s : CbState) (e : UrlErr) (es : List UrlErr) :
    cb_logs s (e :: es) =
      (exception_cb s e).logged :: cb_logs (exception_cb s e).state es :=
  rfl

/-- Helper: the log-relevant fields of one callback invocation. -/
theorem exception_cb_log_fields (s : CbState) (e : UrlErr) :
    (exception_cb s e).logged = cbLogged s e.msg ∧
    (exception_cb s e).state.errorCount = s.errorCount + 1 ∧
    (exception_cb s e).state.threshold =
      (if cbLogged s e.msg then s.threshold * 2 else s.threshold) := by
  unfold exception_cb
  split
  · simp
  · split
    · split <;> simp
    · simp

/-- Helper: after any processed attempt the callback's remembered
last-reported line is that attempt's message: either the attempt was
reported (updating it) or it was suppressed, which requires the message
to already equal the remembered one. -/
theorem exception_cb_lastLog (s : CbState) (e : UrlErr) :
    (exception_cb s e).state.lastLog = some e.msg := by
  have key : (if cbLogged s e.msg then some e.msg else s.lastLog)
      = some e.msg := by
    by_cases h : some e.msg = s.lastLog
    · split_ifs <;> simp [h]
    · have ht : cbLogged s e.msg = true := by
        simp [cbLogged, h]
      rw [ht]
      simp
  unfold exception_cb
  split
  · simpa using key
  · split
    · split <;> simpa using key
    · simpa using key

/-- Helper: the implementation's reported-line flags coincide with the
claim's recursion, which compares against the previous attempt's message
rather than the last reported one. -/
theorem cb_logs_eq_claimed (errs : List UrlErr) :
    ∀ s : CbState,
      cb_logs s errs =
        claimed_log_flags (s.errorCount + 1) s.threshold s.lastLog errs := by
  induction errs with
  | nil => intro s; rfl
  | cons e es ih =>
    intro s
    have hf := exception_cb_log_fields s e
    rw [cb_logs_cons, ih (exception_cb s e).state]
    rw [hf.1, hf.2.1, hf.2.2, exception_cb_lastLog]
    rfl

/-- C7: a diagnostic line is reported exactly on the failed attempts
whose attempt number equals the current (doubling power-of-two) threshold
or whose formatted message differs from the previous attempt's; with an
unchanging message that is attempts 1, 2, 4, 8, ... . -/
theorem imds_log_threshold :
    (∀ (budget : Option Int) (errs : List UrlErr),
        cb_logs (initCbState budget) errs =
          claimed_log_flags 1 1 none errs) ∧
    cb_logs (initCbState none) (List.replicate 10 ⟨some 410, "timeout"⟩) =
      [true, true, false, true, false, false, false, true, false, false] := by
  constructor
  · intro budget errs
    exact cb_logs_eq_claimed errs (initCbState budget)
  · decide

/-- Helper: unfolding of the tree redaction at a node. -/
theorem redactElem_mk (tag : String) (tx : Option String) (cs : List EtElem) :
    redactElem (.mk tag tx cs) =
      .mk tag (redactText tag tx) (cs.map redactElem) := by
  rw [redactElem]
  rw [List.attach_map_val cs redactElem]

/-- Helper: the per-element text rewrite is idempotent. -/
theorem redactText_idem (tag : String) (tx : Option String) :
    redactText tag (redactText tag tx) = redactText tag tx := by
  unfold redactText
  split_ifs <;> simp_all

/-- Helper: redacting an already-redacted element tree changes nothing. -/
theorem redactElem_idem (e : EtElem) :
    redactElem (redactElem e) = redactElem e := by
  induction e using redactElem.induct with
  | _ tag tx cs ih =>
    rw [redactElem_mk, redactElem_mk]
    rw [List.map_map]
    refine congrArg₂ _ (redactText_idem tag tx) ?_
    exact List.map_congr_left fun c hc => ih ⟨c, hc⟩

/-- C8: password redaction of a persisted envelope is idempotent —
redacting an already-redacted document yields the identical tree and
hence a byte-identical serialized document. -/
theorem redact_password_idempotent :
    (∀ doc : EtElem, redactElem (redactElem doc) = redactElem doc) ∧
    (∀ doc : EtElem,
      et_tostring (redactElem (redactElem doc)) =
        et_tostring (redactElem doc)) :=
  ⟨redactElem_idem, fun doc => congrArg et_tostring (redactElem_idem doc)⟩

/-- Helper: a lower-case hex digit decodes, its value is below 16, and
re-encoding gives the same character back. -/
theorem hexDigit_mem_spec (c : Char) (h : c ∈ lowerHexDigits) :
    hexDigitToNat? c = some ((hexDigitToNat? c).getD 0) ∧
    (hexDigitToNat? c).getD 0 < 16 ∧
    natToHexDigit ((hexDigitToNat? c).getD 0) = c := by
  obtain ⟨n, hn, rfl⟩ := List.mem_map.mp h
  rw [List.mem_range] at hn
  have h2 : hexDigitToNat? (natToHexDigit n) = some n := by
    interval_cases n <;> decide
  rw [h2]
  exact ⟨rfl, by simpa using hn, rfl⟩

/-- Helper: encoding a value below 16 yields a lower-case hex digit that
decodes back to the value. -/
theorem natToHexDigit_spec (n : Nat) (h : n < 16) :
    natToHexDigit n ∈ lowerHexDigits ∧
    hexDigitToNat? (natToHexDigit n) = some n := by
  refine ⟨List.mem_map.mpr ⟨n, List.mem_range.mpr h, rfl⟩, ?_⟩
  interval_cases n <;> decide

/-- Helper: lower-case hex digits are not the group separator. -/
theorem mem_lowerHexDigits_ne_dash (c : Char) (h : c ∈ lowerHexDigits) :
    ¬ c = Char.ofNat 45 := by
  obtain ⟨n, hn, rfl⟩ := List.mem_map.mp h
  rw [List.mem_range] at hn
  interval_cases n <;> decide

/-- Helper: decoding the hex rendering of a byte list recovers it. -/
theorem bytesFromHex_bytesToHex (bs : List Nat) (h : ∀ b ∈ bs, b < 256) :
    bytesFromHex? (bytesToHex bs) = some bs := by
  induction bs with
  | nil => rfl
  | cons b bs ih =>
    have hb : b < 256 := h b (by simp)
    have h1 : b / 16 < 16 := by omega
    have h2 : b % 16 < 16 := by omega
    have d1 := (natToHexDigit_spec _ h1).2
    have d2 := (natToHexDigit_spec _ h2).2
    have ih2 := ih fun x hx => h x (by simp [hx])
    simp only [bytesToHex, bytesFromHex?, d1, d2, ih2, Option.bind_some,
      Option.some_bind, Option.bind]
    have : 16 * (b / 16) + b % 16 = b := by omega
    simp [this]

/-- Helper: the characters of a hex rendering are lower-case hex
digits. -/
theorem bytesToHex_mem (bs : List Nat) (h : ∀ b ∈ bs, b < 256) :
    ∀ c ∈ bytesToHex bs, c ∈ lowerHexDigits := by
  induction bs with
  | nil => simp [bytesToHex]
  | cons b bs ih =>
    have hb : b < 256 := h b (by simp)
    have ih2 := ih fun x hx => h x (by simp [hx])
    intro c hc
    simp only [bytesToHex, List.mem_cons] at hc
    rcases hc with hc | hc | hc
    · exact hc ▸ (natToHexDigit_spec _ (by omega)).1
    · exact hc ▸ (natToHexDigit_spec _ (by omega)).1
    · exact ih2 c hc

/-- Helper: a hex rendering has even length, two digits per byte. -/
theorem bytesToHex_length (bs : List Nat) :
    (bytesToHex bs).length = 2 * bs.length := by
  induction bs with
  | nil => rfl
  | cons b bs ih => simp [bytesToHex, ih]; omega

/-- Helper: a non-empty even-length lower-case hex group decodes to a
byte list whose bytes are below 256 and whose re-encoding is the original
group. -/
theorem bytesToHex_bytesFromHex (g : List Char)
    (hmem : ∀ c ∈ g, c ∈ lowerHexDigits) (heven : g.length % 2 = 0) :
    ∃ bs, bytesFromHex? g = some bs ∧ (∀ b ∈ bs, b < 256) ∧
      bytesToHex bs = g ∧ 2 * bs.length = g.length := by
  induction g using bytesFromHex?.induct with
  | case1 => exact ⟨[], rfl, by simp, rfl, rfl⟩
  | case2 c => simp at heven
  | case3 c1 c2 rest ih =>
    have m1 := hexDigit_mem_spec c1 (hmem c1 (by simp))
    have m2 := hexDigit_mem_spec c2 (hmem c2 (by simp))
    obtain ⟨bs, hbs, hlt, henc, hlen⟩ :=
      ih (fun c hc => hmem c (by simp [hc]))
        (by simp only [List.length_cons] at heven; omega)
    set h1 := (hexDigitToNat? c1).getD 0 with hh1
    set h2 := (hexDigitToNat? c2).getD 0 with hh2
    refine ⟨(16 * h1 + h2) :: bs, ?_, ?_, ?_, ?_⟩
    · simp only [bytesFromHex?, m1.1, m2.1, hbs, Option.bind_some,
        Option.some_bind, Option.bind]
      rfl
    · intro b hb
      rcases List.mem_cons.mp hb with hb | hb
      · subst hb
        have := m1.2.1
        have := m2.2.1
        omega
      · exact hlt b hb
    · have e1 : (16 * h1 + h2) / 16 = h1 := by
        have := m2.2.1
        omega
      have e2 : (16 * h1 + h2) % 16 = h2 := by
        have := m2.2.1
        omega
      simp [bytesToHex, e1, e2, m1.2.2, m2.2.2, henc]
    · simp only [List.length_cons]
      omega

/-- Helper: the per-group byte-order swap on a non-empty even lower-case
hex group yields another such group, and swapping it again restores the
original. -/
theorem swapHex_good (g : List Char) (hgood : goodHexGroup g) :
    ∃ q, swapHexEndianness? g = some q ∧ goodHexGroup q ∧
      swapHexEndianness? q = some g := by
  obtain ⟨hne, heven, hmem⟩ := hgood
  obtain ⟨bs, hbs, hlt, henc, hlen⟩ := bytesToHex_bytesFromHex g hmem heven
  have hltr : ∀ b ∈ bs.reverse, b < 256 := by
    intro b hb
    exact hlt b (List.mem_reverse.mp hb)
  refine ⟨bytesToHex bs.reverse, ?_, ⟨?_, ?_, ?_⟩, ?_⟩
  · simp [swapHexEndianness?, hbs]
  · have hbs_ne : bs ≠ [] := by
      intro hnil
      apply hne
      rw [hnil] at hlen
      simp at hlen
      exact List.length_eq_zero.mp hlen.symm
    intro hnil
    have := bytesToHex_length bs.reverse
    rw [hnil] at this
    simp at this
    exact hbs_ne this
  · rw [bytesToHex_length]
    omega
  · exact bytesToHex_mem bs.reverse hltr
  · simp [swapHexEndianness?, bytesFromHex_bytesToHex bs.reverse hltr,
      List.reverse_reverse, henc]

/-- Helper: unfolding of the split at a separator character. -/
theorem splitOnChar_cons_sep (sep : Char) (cs : List Char) :
    splitOnChar sep (sep :: cs) = [] :: splitOnChar sep cs := by
  simp [splitOnChar]

/-- Helper: splitting never yields the empty list of groups. -/
theorem splitOnChar_ne_nil (sep : Char) (l : List Char) :
    splitOnChar sep l ≠ [] := by
  induction l with
  | nil => simp [splitOnChar]
  | cons c cs ih =>
    simp only [splitOnChar]
    split
    · simp
    · rcases hs : splitOnChar sep cs with _ | ⟨g, gs⟩
      · simp
      · simp

/-- Helper: splitting a separator-free list yields that single group. -/
theorem splitOnChar_no_sep (sep : Char) (l : List Char) (h : sep ∉ l) :
    splitOnChar sep l = [l] := by
  induction l with
  | nil => rfl
  | cons c cs ih =>
    have hc : ¬ c = sep := fun hc => h (by simp [hc])
    have ih2 := ih fun hm => h (by simp [hm])
    simp [splitOnChar, hc, ih2]

/-- Helper: splitting a separator-free group glued before a separator
peels off that group. -/
theorem splitOnChar_append_sep (sep : Char) (g r : List Char)
    (h : sep ∉ g) :
    splitOnChar sep (g ++ sep :: r) = g :: splitOnChar sep r := by
  induction g with
  | nil => simp [splitOnChar]
  | cons c g ih =>
    have hc : ¬ c = sep := fun hc => h (by simp [hc])
    have ih2 := ih fun hm => h (by simp [hm])
    simp [splitOnChar, hc, ih2]

/-- Helper: joining then splitting recovers the groups, provided no group
contains the separator. -/
theorem splitOnChar_joinWithChar (sep : Char) (gs : List (List Char))
    (hne : gs ≠ []) (h : ∀ g ∈ gs, sep ∉ g) :
    splitOnChar sep (joinWithChar sep gs) = gs := by
  induction gs with
  | nil => exact absurd rfl hne
  | cons g gs ih =>
    cases gs with
    | nil =>
      simp only [joinWithChar]
      exact splitOnChar_no_sep sep g (h g (by simp))
    | cons g2 gs2 =>
      have ih2 := ih (by simp) fun x hx => h x (by simp [hx])
      show splitOnChar sep (g ++ sep :: joinWithChar sep (g2 :: gs2)) = _
      rw [splitOnChar_append_sep sep g _ (h g (by simp)), ih2]

/-- Helper: joining the split groups reassembles the original list. -/
theorem joinWithChar_splitOnChar (sep : Char) (l : List Char) :
    joinWithChar sep (splitOnChar sep l) = l := by
  induction l with
  | nil => rfl
  | cons c cs ih =>
    by_cases hc : c = sep
    · subst hc
      simp only [splitOnChar, if_pos rfl]
      rcases hs : splitOnChar c cs with _ | ⟨g, gs⟩
      · exact absurd hs (splitOnChar_ne_nil c cs)
      · rw [hs] at ih
        show joinWithChar c ([] :: g :: gs) = c :: cs
        show [] ++ c :: joinWithChar c (g :: gs) = c :: cs
        simp [ih]
    · simp only [splitOnChar, if_neg hc]
      rcases hs : splitOnChar sep cs with _ | ⟨g, gs⟩
      · exact absurd hs (splitOnChar_ne_nil sep cs)
      · rw [hs] at ih
        cases gs with
        | nil =>
          show joinWithChar sep [c :: g] = c :: cs
          show c :: g = c :: cs
          simp only [joinWithChar] at ih
          simp [ih]
        | cons g2 gs2 =>
          show joinWithChar sep ((c :: g) :: g2 :: gs2) = c :: cs
          show (c :: g) ++ sep :: joinWithChar sep (g2 :: gs2) = c :: cs
          simp only [joinWithChar] at ih
          simpa using ih

/-- Helper: no group produced by splitting contains the separator. -/
theorem splitOnChar_groups_no_sep (sep : Char) (l : List Char) :
    ∀ g ∈ splitOnChar sep l, sep ∉ g := by
  induction l with
  | nil =>
    intro g hg
    have : splitOnChar sep ([] : List Char) = [[]] := rfl
    rw [this] at hg
    simp only [List.mem_cons, List.not_mem_nil, or_false] at hg
    simp [hg]
  | cons c cs ih =>
    intro g hg
    by_cases hc : c = sep
    · subst hc
      rw [splitOnChar_cons_sep, List.mem_cons] at hg
      rcases hg with hg | hg
      · simp [hg]
      · exact ih g hg
    · simp only [splitOnChar, if_neg hc] at hg
      rcases hs : splitOnChar sep cs with _ | ⟨g1, gs⟩
      · exact absurd hs (splitOnChar_ne_nil sep cs)
      · rw [hs] at hg ih
        rcases List.mem_cons.mp hg with hg | hg
        · subst hg
          intro hmem
          rcases List.mem_cons.mp hmem with hm | hm
          · exact hc hm.symm
          · exact ih g1 (by simp) hm
        · exact ih g (by simp [hg])

/-- Helper: character-list involution of the VM-id conversion. -/
theorem convert_uuid_chars_involutive (l : List Char)
    (p0 p1 p2 : List Char) (rest : List (List Char))
    (hsplit : splitOnChar (Char.ofNat 45) l = p0 :: p1 :: p2 :: rest)
    (h0 : goodHexGroup p0) (h1 : goodHexGroup p1) (h2 : goodHexGroup p2) :
    ∃ m, convert_uuid_chars l = some m ∧ convert_uuid_chars m = some l ∧
      (splitOnChar (Char.ofNat 45) m).drop 3 = rest := by
  obtain ⟨q0, hq0, hg0, hb0⟩ := swapHex_good p0 h0
  obtain ⟨q1, hq1, hg1, hb1⟩ := swapHex_good p1 h1
  obtain ⟨q2, hq2, hg2, hb2⟩ := swapHex_good p2 h2
  have hrest : ∀ g ∈ rest, (Char.ofNat 45) ∉ g := by
    intro g hgmem
    refine splitOnChar_groups_no_sep (Char.ofNat 45) l g ?_
    rw [hsplit]
    simp [hgmem]
  have hnosep : ∀ g ∈ q0 :: q1 :: q2 :: rest, (Char.ofNat 45) ∉ g := by
    intro g hgmem
    rcases List.mem_cons.mp hgmem with h | hgmem
    · subst h
      intro hmem
      exact mem_lowerHexDigits_ne_dash _ (hg0.2.2 _ hmem) rfl
    rcases List.mem_cons.mp hgmem with h | hgmem
    · subst h
      intro hmem
      exact mem_lowerHexDigits_ne_dash _ (hg1.2.2 _ hmem) rfl
    rcases List.mem_cons.mp hgmem with h | hgmem
    · subst h
      intro hmem
      exact mem_lowerHexDigits_ne_dash _ (hg2.2.2 _ hmem) rfl
    · exact hrest g hgmem
  have hsplit_back :
      splitOnChar (Char.ofNat 45)
        (joinWithChar (Char.ofNat 45) (q0 :: q1 :: q2 :: rest)) =
        q0 :: q1 :: q2 :: rest :=
    splitOnChar_joinWithChar _ _ (by simp) hnosep
  refine ⟨joinWithChar (Char.ofNat 45) (q0 :: q1 :: q2 :: rest), ?_, ?_, ?_⟩
  · unfold convert_uuid_chars
    rw [hsplit]
    simp [hq0, hq1, hq2]
  · unfold convert_uuid_chars
    rw [hsplit_back]
    simp only [hb0, hb1, hb2, Option.some_bind, Option.bind_some]
    have hjoin : joinWithChar (Char.ofNat 45) (p0 :: p1 :: p2 :: rest) = l := by
      rw [← hsplit]
      exact joinWithChar_splitOnChar _ l
    simp [hjoin]
  · rw [hsplit_back]
    rfl

/-- C10: for a system UUID whose first three hyphen-separated groups are
non-empty even-length lower-case hex strings,
`convert_system_uuid_to_vm_id` is self-inverse (byte-order reversal of
each group is an involution), and a single application leaves all groups
after the third unchanged. -/
theorem convert_system_uuid_to_vm_id_involutive (s : String)
    (p0 p1 p2 : List Char) (rest : List (List Char))
    (hsplit : splitOnChar (Char.ofNat 45) s.data = p0 :: p1 :: p2 :: rest)
    (h0 : goodHexGroup p0) (h1 : goodHexGroup p1) (h2 : goodHexGroup p2) :
    ∃ t, convert_system_uuid_to_vm_id s = some t ∧
      convert_system_uuid_to_vm_id t = some s ∧
      (splitOnChar (Char.ofNat 45) t.data).drop 3 = rest := by
  obtain ⟨m, hm1, hm2, hm3⟩ :=
    convert_uuid_chars_involutive s.data p0 p1 p2 rest hsplit h0 h1 h2
  refine ⟨⟨m⟩, ?_, ?_, ?_⟩
  · simp [convert_system_uuid_to_vm_id, hm1]
  · show (convert_uuid_chars m).map (fun l => (⟨l⟩ : String)) = some s
    rw [hm2]
    rfl
  · exact hm3

/-- Witness for C10 on the UUID `aabbccdd-eeff-0011-2233`. -/
theorem convert_system_uuid_to_vm_id_involutive_witness :
    ∃ t, convert_system_uuid_to_vm_id "aabbccdd-eeff-0011-2233" = some t ∧
      convert_system_uuid_to_vm_id t = some "aabbccdd-eeff-0011-2233" ∧
      (splitOnChar (Char.ofNat 45) t.data).drop 3 = ["2233".data] :=
  convert_system_uuid_to_vm_id_involutive "aabbccdd-eeff-0011-2233"
    "aabbccdd".data "eeff".data "0011".data ["2233".data]
    (by decide) ⟨by decide, by decide, by decide⟩
    ⟨by decide, by decide, by decide⟩ ⟨by decide, by decide, by decide⟩

/-- Helper: key membership distributes over appended tracking maps. -/
theorem containsKey_append (a b : List (String × DhcpCtx)) (k : String) :
    containsKey (a ++ b) k = (containsKey a k || containsKey b k) :=
  List.any_append

/-- Helper: key membership is membership among the mapped keys. -/
theorem containsKey_iff_mem_keys (m : List (String × DhcpCtx)) (k : String) :
    containsKey m k = true ↔ k ∈ m.map Prod.fst := by
  unfold containsKey
  rw [List.any_eq_true]
  constructor
  · rintro ⟨p, hp, he⟩
    exact List.mem_map.mpr ⟨p, hp, of_decide_eq_true he⟩
  · intro hk
    obtain ⟨p, hp, he⟩ := List.mem_map.mp hk
    exact ⟨p, hp, decide_eq_true he⟩

/-- Helper: the bring-up loop only appends contexts for interfaces that
were not already tracked. -/
theorem setupLoop_dhcpMap_extend (env : NetEnv) (ifaces : List String) :
    ∀ st : NetState, ∃ tail,
      (setupLoop env st ifaces).2.dhcpMap = st.dhcpMap ++ tail ∧
      ∀ p ∈ tail, containsKey st.dhcpMap p.1 = false := by
  induction ifaces with
  | nil =>
    intro st
    exact ⟨[], by simp [setupLoop], by simp⟩
  | cons iface rest ih =>
    intro st
    by_cases hmem : containsKey st.dhcpMap iface = true
    · obtain ⟨tail, ht, hp⟩ := ih st
      refine ⟨tail, ?_, hp⟩
      simpa [setupLoop, hmem] using ht
    · have hsingle : ∀ p ∈ [(iface, env.dhcp iface)],
          containsKey st.dhcpMap p.1 = false := by
        intro p hp
        rw [List.mem_singleton] at hp
        subst hp
        exact Bool.not_eq_true _ ▸ eq_false_of_ne_true hmem
      simp only [setupLoop, hmem, Bool.false_eq_true, if_false]
      split
      · exact ⟨[(iface, env.dhcp iface)], rfl, hsingle⟩
      · split
        · exact ⟨[(iface, env.dhcp iface)], rfl, hsingle⟩
        · obtain ⟨tail2, ht2, hp2⟩ :=
            ih ⟨st.dhcpMap ++ [(iface, env.dhcp iface)], _⟩
          refine ⟨(iface, env.dhcp iface) :: tail2, ?_, ?_⟩
          · rw [ht2]
            simp
          · intro p hp
            rcases List.mem_cons.mp hp with hp | hp
            · subst hp
              exact Bool.not_eq_true _ ▸ eq_false_of_ne_true hmem
            · have := hp2 p hp
              rw [containsKey_append] at this
              exact (Bool.or_eq_false_iff.mp this).1

/-- Helper: the bring-up loop preserves distinctness of tracked
interface names. -/
theorem setupLoop_keys_nodup (env : NetEnv) (ifaces : List String) :
    ∀ st : NetState, (st.dhcpMap.map Prod.fst).Nodup →
      ((setupLoop env st ifaces).2.dhcpMap.map Prod.fst).Nodup := by
  induction ifaces with
  | nil =>
    intro st h
    simpa [setupLoop] using h
  | cons iface rest ih =>
    intro st h
    by_cases hmem : containsKey st.dhcpMap iface = true
    · simpa [setupLoop, hmem] using ih st h
    · have hnotin : iface ∉ st.dhcpMap.map Prod.fst := fun hmm =>
        hmem ((containsKey_iff_mem_keys _ _).mpr hmm)
      have hext : ((st.dhcpMap ++ [(iface, env.dhcp iface)]).map
          Prod.fst).Nodup := by
        rw [List.map_append, List.nodup_append]
        refine ⟨h, by simp, ?_⟩
        intro a ha hb
        simp only [List.map_cons, List.map_nil, List.mem_singleton] at hb
        subst hb
        exact hnotin ha
      simp only [setupLoop, hmem, Bool.false_eq_true, if_false]
      split
      · exact hext
      · split
        · exact hext
        · exact ih _ hext

/-- C6: bring-up skips already-tracked interfaces — it only ever appends
contexts for names not yet in the map, preserving at most one tracked
context per interface name — and teardown releases every tracked context,
leaves the map empty, and is a no-op on an empty map. -/
theorem ephemeral_dhcp_context_invariants :
    (∀ (env : NetEnv) (st : NetState) (md : Option Imds) (st2 : NetState),
        _setup_ephemeral_networking env st = some (md, st2) →
        (∃ tail, st2.dhcpMap = st.dhcpMap ++ tail ∧
            ∀ p ∈ tail, containsKey st.dhcpMap p.1 = false) ∧
          ((st.dhcpMap.map Prod.fst).Nodup →
            (st2.dhcpMap.map Prod.fst).Nodup)) ∧
    (∀ st : NetState,
        (_teardown_ephemeral_networking st).1 = st.dhcpMap ∧
        (_teardown_ephemeral_networking st).2.dhcpMap = []) ∧
    (∀ st : NetState, st.dhcpMap = [] →
        _teardown_ephemeral_networking st = ([], st)) := by
  refine ⟨?_, fun st => ⟨rfl, rfl⟩, ?_⟩
  · intro env st md st2 h
    unfold _setup_ephemeral_networking at h
    split at h
    · exact absurd h (by simp)
    · rw [Option.some_inj] at h
      have h2 : st2 = (setupLoop env st env.candidateNics).2 := by
        rw [h]
      subst h2
      exact ⟨setupLoop_dhcpMap_extend env env.candidateNics st,
        fun hn => setupLoop_keys_nodup env env.candidateNics st hn⟩
  · intro st h
    cases st with
    | mk m w =>
      subst h
      rfl

/-- Witness for C6: bringing up one fresh interface extends the empty map
by one entry, and teardown of the empty map is the identity. -/
theorem ephemeral_dhcp_context_invariants_witness :
    ((∃ tail, ([("eth0", dhcpCtxW)] : List (String × DhcpCtx)) =
        ([] : List (String × DhcpCtx)) ++ tail ∧
        ∀ p ∈ tail, containsKey [] p.1 = false) ∧
      ((([] : List (String × DhcpCtx)).map Prod.fst).Nodup →
        (([("eth0", dhcpCtxW)] : List (String × DhcpCtx)).map
          Prod.fst).Nodup)) ∧
    _teardown_ephemeral_networking ⟨[], "168.63.129.16"⟩ =
      ([], ⟨[], "168.63.129.16"⟩) :=
  ⟨ephemeral_dhcp_context_invariants.1 netEnvW ⟨[], "168.63.129.16"⟩
      none ⟨[("eth0", dhcpCtxW)], "168.63.129.16"⟩ rfl,
   ephemeral_dhcp_context_invariants.2.2 ⟨[], "168.63.129.16"⟩ rfl⟩

/-- Helper: the reprovision poll loop emits only poll/restart events. -/
theorem pollFetchLoop_trace_events (outs : List ReproOutcome) :
    ∀ (s : AzState) (p : XNode) (s2 : AzState) (tr : List Ev),
      pollFetchLoop s outs = some (p, s2, tr) →
      ∀ e ∈ tr, ppsTailEv e = true := by
  induction outs with
  | nil =>
    intro s p s2 tr h
    simp [pollFetchLoop] at h
  | cons o rest ih =>
    intro s p s2 tr h
    cases o with
    | ok payload =>
      simp only [pollFetchLoop, Option.some_inj, Prod.mk.injEq] at h
      obtain ⟨-, -, rfl⟩ := h
      intro e he
      rw [List.mem_singleton] at he
      subst he
      rfl
    | errCode c =>
      simp only [pollFetchLoop] at h
      cases hrec : pollFetchLoop s rest with
      | none =>
        rw [hrec] at h
        simp at h
      | some v =>
        obtain ⟨p2, s3, tr2⟩ := v
        rw [hrec] at h
        simp only [Option.some_inj, Prod.mk.injEq] at h
        obtain ⟨-, -, rfl⟩ := h
        intro e he
        rcases List.mem_cons.mp he with he | he
        · subst he
          rfl
        · exact ih s p2 s3 tr2 hrec e he
    | errNoCode =>
      cases hsu : setupStep (teardownStep s) with
      | none =>
        simp [pollFetchLoop, hsu] at h
      | some w =>
        obtain ⟨md, s3⟩ := w
        simp only [pollFetchLoop, hsu] at h
        cases hrec : pollFetchLoop s3 rest with
        | none =>
          rw [hrec] at h
          simp at h
        | some v =>
          obtain ⟨p2, s4, tr2⟩ := v
          rw [hrec] at h
          simp only [Option.some_inj, Prod.mk.injEq] at h
          obtain ⟨-, -, rfl⟩ := h
          intro e he
          rcases List.mem_cons.mp he with he | he
          · subst he
            rfl
          rcases List.mem_cons.mp he with he | he
          · subst he
            rfl
          rcases List.mem_cons.mp he with he | he
          · subst he
            rfl
          · exact ih s3 p2 s4 tr2 hrec e he

/-- Helper: trace of a poll phase whose loop succeeded. -/
theorem poll_trace_eq_some (lib : PyLib) (s : AzState)
    (outs : List ReproOutcome) (p : XNode) (s2 : AzState) (tr : List Ev)
    (hp : pollFetchLoop s outs = some (p, s2, tr)) :
    runTrace (_poll_for_reprovision_data lib s outs) =
      tr ++ [Ev.reparseOvf] := by
  unfold _poll_for_reprovision_data
  rw [hp]
  dsimp only
  cases read_azure_ovf lib p with
  | ok res =>
    obtain ⟨md, ud, cfg⟩ := res
    rfl
  | error err => cases err <;> rfl

/-- Helper: trace of a poll phase whose loop never succeeds. -/
theorem poll_trace_eq_none (lib : PyLib) (s : AzState)
    (outs : List ReproOutcome) (hp : pollFetchLoop s outs = none) :
    runTrace (_poll_for_reprovision_data lib s outs) = [] := by
  unfold _poll_for_reprovision_data
  rw [hp]
  rfl

/-- Helper: the reprovision-poll phase emits only poll/restart/reparse
events, whatever its outcome. -/
theorem poll_for_reprovision_trace_events (lib : PyLib) (s : AzState)
    (outs : List ReproOutcome) :
    ∀ e ∈ runTrace (_poll_for_reprovision_data lib s outs),
      ppsTailEv e = true := by
  cases hp : pollFetchLoop s outs with
  | none =>
    rw [poll_trace_eq_none lib s outs hp]
    simp
  | some v =>
    obtain ⟨payload, s2, tr⟩ := v
    rw [poll_trace_eq_some lib s outs payload s2 tr hp]
    intro e he
    rcases List.mem_append.mp he with he | he
    · exact pollFetchLoop_trace_events outs s payload s2 tr hp e he
    · rw [List.mem_singleton] at he
      subst he
      rfl

/-- Helper: the post-wait tail of `_execute_pps` appends only
poll/restart/reparse/IMDS-fill events to the given prefix. -/
theorem afterPpsWait_trace_events (lib : PyLib) (s : AzState)
    (tr : List Ev) (outs : List ReproOutcome) :
    ∃ tr2, runTrace (afterPpsWait lib s tr outs) = tr ++ tr2 ∧
      ∀ e ∈ tr2, ppsTailEv e = true := by
  have hpoll := poll_for_reprovision_trace_events lib s outs
  unfold afterPpsWait
  cases hp : _poll_for_reprovision_data lib s outs with
  | ok s2 tr2 =>
    rw [hp] at hpoll
    dsimp only
    cases hmd : s2.imdsMd with
    | some md =>
      exact ⟨tr2, rfl, hpoll⟩
    | none =>
      refine ⟨tr2 ++ [Ev.fetchImds], by simp [runTrace], ?_⟩
      intro e he
      rcases List.mem_append.mp he with he | he
      · exact hpoll e he
      · rw [List.mem_singleton] at he
        subst he
        rfl
  | exc m tr2 =>
    rw [hp] at hpoll
    exact ⟨tr2, rfl, hpoll⟩
  | hang tr2 =>
    rw [hp] at hpoll
    exact ⟨tr2, rfl, hpoll⟩

/-- Helper: marker writes are not poll/restart/reparse/IMDS events. -/
theorem writeMarker_not_ppsTail (tr : List Ev)
    (h : ∀ e ∈ tr, ppsTailEv e = true) : Ev.writeMarker ∉ tr := by
  intro hmem
  exact absurd (h Ev.writeMarker hmem) (by decide)

/-- Helper: a trace without marker writes trivially satisfies the
marker-after-report property. -/
theorem markerAfterReport_of_not_mem (tr : List Ev)
    (h : Ev.writeMarker ∉ tr) : markerAfterReport tr := by
  intro n hmem
  exact absurd (List.take_subset n tr hmem) h

/-- Helper: a trace opening with a ready-report attempt satisfies the
marker-after-report property. -/
theorem markerAfterReport_cons_report (b : Bool) (rest : List Ev) :
    markerAfterReport (Ev.reportReady b :: rest) := by
  intro n hmem
  cases n with
  | zero => simp at hmem
  | succ m =>
    exact ⟨b, by simp [List.take_succ_cons]⟩

/-- Helper: the marker-after-report property survives prefixing events
without marker writes. -/
theorem markerAfterReport_append_left (l1 l2 : List Ev)
    (h1 : Ev.writeMarker ∉ l1) (h2 : markerAfterReport l2) :
    markerAfterReport (l1 ++ l2) := by
  intro n hmem
  rw [List.take_append_eq_append_take] at hmem ⊢
  rcases List.mem_append.mp hmem with hmem | hmem
  · exact absurd (List.take_subset _ l1 hmem) h1
  · obtain ⟨b, hb⟩ := h2 _ hmem
    exact ⟨b, List.mem_append.mpr (Or.inr hb)⟩

/-- Helper: the marker-after-report property survives appending events
without marker writes. -/
theorem markerAfterReport_append_right (l1 l2 : List Ev)
    (h1 : markerAfterReport l1) (h2 : Ev.writeMarker ∉ l2) :
    markerAfterReport (l1 ++ l2) := by
  intro n hmem
  rw [List.take_append_eq_append_take] at hmem ⊢
  rcases List.mem_append.mp hmem with hmem | hmem
  · obtain ⟨b, hb⟩ := h1 _ hmem
    exact ⟨b, List.mem_append.mpr (Or.inl hb)⟩
  · exact absurd (List.take_subset _ l2 hmem) h2

/-- Helper: the wait phase emits only wait events. -/
theorem waitEvents_mem (socketOk : Bool) (pps : PPSType) :
    ∀ e ∈ waitEvents socketOk pps,
      e = Ev.waitMedia ∨ e = Ev.waitNicAttach := by
  intro e he
  cases socketOk with
  | false => simp [waitEvents] at he
  | true =>
    cases pps <;> simp [waitEvents] at he <;> simp [he]

/-- Helper: a trace of only pps-tail events has no marker writes and no
ready reports. -/
theorem countMarkerWrites_eq_zero (tr : List Ev)
    (h : Ev.writeMarker ∉ tr) : countMarkerWrites tr = 0 := by
  rw [countMarkerWrites, List.countP_eq_zero]
  intro e he
  cases e <;> simp_all

/-- Helper: teardown does not touch the ReadyMarker. -/
theorem teardownStep_marker (s : AzState) :
    (teardownStep s).marker = s.marker := rfl

/-- Helper: bring-up does not touch the ReadyMarker. -/
theorem setupStep_marker (s : AzState) (md : Option Imds) (s2 : AzState)
    (h : setupStep s = some (md, s2)) : s2.marker = s.marker := by
  unfold setupStep at h
  cases hn : s.netEnvs with
  | nil =>
    rw [hn] at h
    simp at h
  | cons env rest =>
    rw [hn] at h
    dsimp only at h
    cases hsu : _setup_ephemeral_networking env s.net with
    | none =>
      rw [hsu] at h
      simp at h
    | some v =>
      obtain ⟨md2, net2⟩ := v
      rw [hsu] at h
      simp only [Option.some_inj, Prod.mk.injEq] at h
      obtain ⟨-, h2⟩ := h
      rw [← h2]

/-- Helper: the IMDS fetch step does not touch the ReadyMarker. -/
theorem imdsFetchStep_marker (s : AzState) :
    (imdsFetchStep s).2.marker = s.marker := by
  unfold imdsFetchStep
  cases s.imdsResults <;> rfl

/-- Helper: the reprovision poll loop does not touch the ReadyMarker. -/
theorem pollFetchLoop_marker (outs : List ReproOutcome) :
    ∀ (s : AzState) (p : XNode) (s2 : AzState) (tr : List Ev),
      pollFetchLoop s outs = some (p, s2, tr) → s2.marker = s.marker := by
  induction outs with
  | nil =>
    intro s p s2 tr h
    simp [pollFetchLoop] at h
  | cons o rest ih =>
    intro s p s2 tr h
    cases o with
    | ok payload =>
      simp only [pollFetchLoop, Option.some_inj, Prod.mk.injEq] at h
      obtain ⟨-, h2, -⟩ := h
      rw [← h2]
    | errCode c =>
      simp only [pollFetchLoop] at h
      cases hrec : pollFetchLoop s rest with
      | none =>
        rw [hrec] at h
        simp at h
      | some v =>
        obtain ⟨p2, s3, tr2⟩ := v
        rw [hrec] at h
        simp only [Option.some_inj, Prod.mk.injEq] at h
        obtain ⟨-, h2, -⟩ := h
        rw [← h2]
        exact ih s p2 s3 tr2 hrec
    | errNoCode =>
      cases hsu : setupStep (teardownStep s) with
      | none =>
        simp [pollFetchLoop, hsu] at h
      | some w =>
        obtain ⟨md, s3⟩ := w
        simp only [pollFetchLoop, hsu] at h
        cases hrec : pollFetchLoop s3 rest with
        | none =>
          rw [hrec] at h
          simp at h
        | some v =>
          obtain ⟨p2, s4, tr2⟩ := v
          rw [hrec] at h
          simp only [Option.some_inj, Prod.mk.injEq] at h
          obtain ⟨-, h2, -⟩ := h
          rw [← h2]
          rw [ih s3 p2 s4 tr2 hrec]
          rw [setupStep_marker (teardownStep s) md s3 hsu]
          rfl

/-- Helper: the reprovision-poll phase does not touch the ReadyMarker. -/
theorem poll_for_reprovision_marker (lib : PyLib) (s : AzState)
    (outs : List ReproOutcome) (s2 : AzState) (tr2 : List Ev)
    (h : _poll_for_reprovision_data lib s outs = .ok s2 tr2) :
    s2.marker = s.marker := by
  unfold _poll_for_reprovision_data at h
  cases hp : pollFetchLoop s outs with
  | none =>
    rw [hp] at h
    simp at h
  | some v =>
    obtain ⟨p, s3, tr⟩ := v
    rw [hp] at h
    dsimp only at h
    cases hparse : read_azure_ovf lib p with
    | ok res =>
      obtain ⟨md, ud, cfg⟩ := res
      rw [hparse] at h
      simp only [RunResult.ok.injEq] at h
      obtain ⟨h2, -⟩ := h
      rw [← h2]
      exact pollFetchLoop_marker outs s p s3 tr hp
    | error err =>
      cases err <;> rw [hparse] at h <;> simp at h

/-- Helper: the post-wait phase does not touch the ReadyMarker. -/
theorem afterPpsWait_marker (lib : PyLib) (s : AzState) (tr : List Ev)
    (outs : List ReproOutcome) (s2 : AzState) (tr2 : List Ev)
    (h : afterPpsWait lib s tr outs = .ok s2 tr2) :
    s2.marker = s.marker := by
  unfold afterPpsWait at h
  cases hp : _poll_for_reprovision_data lib s outs with
  | ok s3 tr3 =>
    rw [hp] at h
    dsimp only at h
    have hm3 := poll_for_reprovision_marker lib s outs s3 tr3 hp
    cases hmd : s3.imdsMd with
    | some md =>
      rw [hmd] at h
      simp only [RunResult.ok.injEq] at h
      obtain ⟨h2, -⟩ := h
      rw [← h2]
      exact hm3
    | none =>
      rw [hmd] at h
      simp only [RunResult.ok.injEq] at h
      obtain ⟨h2, -⟩ := h
      rw [← h2]
      show (imdsFetchStep s3).2.marker = s.marker
      rw [imdsFetchStep_marker s3]
      exact hm3
  | exc m tr3 =>
    rw [hp] at h
    simp at h
  | hang tr3 =>
    rw [hp] at h
    simp at h

/-- Helper: marker writes appear in none of the wait events. -/
theorem writeMarker_not_mem_waitEvents (so : Bool) (pps : PPSType) :
    Ev.writeMarker ∉ waitEvents so pps := by
  intro h
  rcases waitEvents_mem so pps _ h with h2 | h2 <;> simp at h2

/-- Helper: the marker facts about one `_execute_pps` run. -/
theorem execute_pps_marker_facts (lib : PyLib) (freebsd : Bool)
    (pps : PPSType) (s : AzState) (outs : List ReproOutcome) :
    markerAfterReport (runTrace (_execute_pps lib freebsd pps s outs)) ∧
    (s.marker = true →
      Ev.writeMarker ∉ runTrace (_execute_pps lib freebsd pps s outs)) ∧
    countMarkerWrites (runTrace (_execute_pps lib freebsd pps s outs)) ≤ 1 ∧
    (∀ s2 tr, _execute_pps lib freebsd pps s outs = .ok s2 tr →
      s2.marker = true) := by
  unfold _execute_pps
  by_cases hf : freebsd = true
  · simp only [hf, if_true]
    exact ⟨markerAfterReport_of_not_mem _ (by simp [runTrace]),
      fun _ => by simp [runTrace],
      by simp [runTrace, countMarkerWrites],
      fun s2 tr h => absurd h (by simp)⟩
  · simp only [Bool.not_eq_true] at hf
    simp only [hf, Bool.false_eq_true, if_false]
    by_cases hm : s.marker = true
    · simp only [hm, if_true]
      obtain ⟨tr2, htr, hpps⟩ := afterPpsWait_trace_events lib s [] outs
      rw [List.nil_append] at htr
      have hwm : Ev.writeMarker ∉
          runTrace (afterPpsWait lib s [] outs) := by
        rw [htr]
        exact writeMarker_not_ppsTail tr2 hpps
      refine ⟨markerAfterReport_of_not_mem _ hwm, fun _ => hwm, ?_, ?_⟩
      · rw [countMarkerWrites_eq_zero _ hwm]
        omega
      · intro s2 tr h
        rw [afterPpsWait_marker lib s [] outs s2 tr h]
        exact hm
    · simp only [Bool.not_eq_true] at hm
      simp only [hm, Bool.false_eq_true, if_false]
      cases hsu : setupStep
          { (reportReadyStep s).2 with marker := true } with
      | none =>
        refine ⟨markerAfterReport_cons_report _ _, fun hmm => hmm.elim,
          ?_, ?_⟩
        · show countMarkerWrites (Ev.reportReady (reportReadyStep s).1 ::
            Ev.writeMarker :: waitEvents s.socketOk pps) ≤ 1
          rw [countMarkerWrites, List.countP_cons, List.countP_cons]
          have h0 : List.countP (fun e =>
              match e with
              | Ev.writeMarker => true
              | _ => false) (waitEvents s.socketOk pps) = 0 := by
            rw [List.countP_eq_zero]
            intro e he
            rcases waitEvents_mem s.socketOk pps e he with h2 | h2 <;>
              simp [h2]
          rw [h0]
          simp
        · intro s2 tr h
          exact absurd h (by simp)
      | some v =>
        obtain ⟨md, s3⟩ := v
        obtain ⟨tr2, htr, hpps⟩ := afterPpsWait_trace_events lib
          { s3 with imdsMd := md }
          ((Ev.reportReady (reportReadyStep s).1 :: Ev.writeMarker ::
            waitEvents s.socketOk pps) ++ [Ev.setupNet]) outs
        have hnotail : Ev.writeMarker ∉
            (waitEvents s.socketOk pps ++ [Ev.setupNet]) ++ tr2 := by
          intro hmem
          rcases List.mem_append.mp hmem with hmem | hmem
          · rcases List.mem_append.mp hmem with hmem | hmem
            · exact writeMarker_not_mem_waitEvents s.socketOk pps hmem
            · rw [List.mem_singleton] at hmem
              cases hmem
          · exact writeMarker_not_ppsTail tr2 hpps hmem
        have htr2 : runTrace (afterPpsWait lib { s3 with imdsMd := md }
            ((Ev.reportReady (reportReadyStep s).1 :: Ev.writeMarker ::
              waitEvents s.socketOk pps) ++ [Ev.setupNet]) outs) =
            Ev.reportReady (reportReadyStep s).1 :: Ev.writeMarker ::
              ((waitEvents s.socketOk pps ++ [Ev.setupNet]) ++ tr2) := by
          rw [htr]
          simp
        refine ⟨?_, fun hmm => hmm.elim, ?_, ?_⟩
        · rw [htr2]
          exact markerAfterReport_cons_report _ _
        · rw [htr2, countMarkerWrites, List.countP_cons, List.countP_cons]
          have h0 : List.countP (fun e =>
              match e with
              | Ev.writeMarker => true
              | _ => false)
              ((waitEvents s.socketOk pps ++ [Ev.setupNet]) ++ tr2) = 0 := by
            rw [List.countP_eq_zero]
            intro e he
            cases e <;> simp_all
          rw [h0]
          simp
        · intro s2 tr h
          rw [afterPpsWait_marker lib { s3 with imdsMd := md } _ outs s2 tr h]
          show s3.marker = true
          rw [setupStep_marker _ md s3 hsu]

/-- Helper: the source-location step only emits a load event. -/
theorem crawl_load_local_trace (lib : PyLib) (localOvf : Option XNode)
    (s : AzState) :
    (∀ m tr, crawl_load_local lib localOvf s = .error (m, tr) →
      tr = [Ev.loadLocal false]) ∧
    (∀ s1 tr1, crawl_load_local lib localOvf s = .ok (s1, tr1) →
      ∃ b, tr1 = [Ev.loadLocal b]) := by
  constructor
  · intro m tr h
    unfold crawl_load_local at h
    cases localOvf with
    | none => simp at h
    | some root =>
      dsimp only at h
      cases hparse : read_azure_ovf lib root with
      | ok res =>
        obtain ⟨md, ud, cfg⟩ := res
        rw [hparse] at h
        dsimp only at h
        simp at h
      | error err =>
        cases err with
        | nonAzure m2 =>
          rw [hparse] at h
          dsimp only at h
          simp at h
        | broken m2 =>
          rw [hparse] at h
          dsimp only at h
          simp only [Except.error.injEq, Prod.mk.injEq] at h
          exact h.2.symm
  · intro s1 tr1 h
    unfold crawl_load_local at h
    cases localOvf with
    | none =>
      simp only [Except.ok.injEq, Prod.mk.injEq] at h
      exact ⟨false, h.2.symm⟩
    | some root =>
      dsimp only at h
      cases hparse : read_azure_ovf lib root with
      | ok res =>
        obtain ⟨md, ud, cfg⟩ := res
        rw [hparse] at h
        dsimp only at h
        simp only [Except.ok.injEq, Prod.mk.injEq] at h
        exact ⟨true, h.2.symm⟩
      | error err =>
        cases err with
        | nonAzure m2 =>
          rw [hparse] at h
          dsimp only at h
          simp only [Except.ok.injEq, Prod.mk.injEq] at h
          exact ⟨false, h.2.symm⟩
        | broken m2 =>
          rw [hparse] at h
          dsimp only at h
          simp at h

/-- Helper: the final phase appends only report/cleanup/teardown events
to its trace. -/
theorem crawl_finish_trace (s4 : AzState) (tr4 : List Ev) :
    ∃ post, runTrace (crawl_finish s4 tr4) = tr4 ++ post ∧
      Ev.writeMarker ∉ post := by
  unfold crawl_finish
  split
  · exact ⟨[], by simp [runTrace], by simp⟩
  · by_cases hneg : s4.negotiated = true
    · refine ⟨[Ev.cleanupMarker, Ev.teardownNet], ?_, by simp⟩
      simp [runTrace, hneg]
    · refine ⟨[Ev.reportReady (reportReadyStep s4).1, Ev.cleanupMarker,
        Ev.teardownNet], ?_, by simp⟩
      simp [runTrace, hneg]

/-- Helper: after a source is secured, every marker write in the crawl
trace follows a ready-report attempt, provided the prefix has no marker
writes. -/
theorem crawl_after_source_markerAfterReport (lib : PyLib)
    (freebsd : Bool) (s3 : AzState) (tr3 : List Ev)
    (outs : List ReproOutcome) (hwm : Ev.writeMarker ∉ tr3) :
    markerAfterReport
      (runTrace (crawl_after_source lib freebsd s3 tr3 outs)) := by
  unfold crawl_after_source
  split
  · exact markerAfterReport_of_not_mem _ hwm
  · cases crawl_determine_pps s3 with
    | error m => exact markerAfterReport_of_not_mem _ hwm
    | ok pps =>
      dsimp only
      by_cases hcond : (pps ≠ PPSType.NONE ∨ s3.marker = true)
      · rw [if_pos hcond]
        cases hex : _execute_pps lib freebsd pps s3 outs with
        | ok s4 tr4 =>
          dsimp only
          have hmar := (execute_pps_marker_facts lib freebsd pps s3 outs).1
          rw [hex] at hmar
          obtain ⟨post, hpost, hpwm⟩ := crawl_finish_trace s4 (tr3 ++ tr4)
          rw [hpost, List.append_assoc]
          refine markerAfterReport_append_left tr3 _ hwm ?_
          exact markerAfterReport_append_right tr4 post hmar hpwm
        | exc m tr4 =>
          dsimp only
          have hmar := (execute_pps_marker_facts lib freebsd pps s3 outs).1
          rw [hex] at hmar
          exact markerAfterReport_append_left tr3 tr4 hwm hmar
        | hang tr4 =>
          dsimp only
          have hmar := (execute_pps_marker_facts lib freebsd pps s3 outs).1
          rw [hex] at hmar
          exact markerAfterReport_append_left tr3 tr4 hwm hmar
      · rw [if_neg hcond]
        obtain ⟨post, hpost, hpwm⟩ := crawl_finish_trace s3 tr3
        show markerAfterReport (runTrace (crawl_finish s3 tr3))
        rw [hpost]
        exact markerAfterReport_append_right tr3 post
          (markerAfterReport_of_not_mem tr3 hwm) hpwm

/-- Helper: every marker write in a whole crawl trace follows a
ready-report attempt. -/
theorem crawl_markerAfterReport (lib : PyLib) (freebsd : Bool)
    (localOvf : Option XNode) (s : AzState) (outs : List ReproOutcome) :
    markerAfterReport
      (runTrace (crawl_metadata lib freebsd localOvf s outs)) := by
  unfold crawl_metadata
  cases h1 : crawl_load_local lib localOvf s with
  | error v =>
    obtain ⟨m, tr⟩ := v
    have htr := (crawl_load_local_trace lib localOvf s).1 m tr h1
    subst htr
    exact markerAfterReport_of_not_mem _ (by simp [runTrace])
  | ok v =>
    obtain ⟨s1, tr1⟩ := v
    obtain ⟨b, hb⟩ := (crawl_load_local_trace lib localOvf s).2 s1 tr1 h1
    subst hb
    dsimp only
    cases h2 : setupStep s1 with
    | none => exact markerAfterReport_of_not_mem _ (by simp [runTrace])
    | some v2 =>
      obtain ⟨md, s2⟩ := v2
      dsimp only
      cases md with
      | some m0 =>
        exact crawl_after_source_markerAfterReport lib freebsd _ _ outs
          (by simp)
      | none =>
        exact crawl_after_source_markerAfterReport lib freebsd _ _ outs
          (by simp)

/-- C4 (amended): the ReadyMarker is created immediately after the first
ready-report attempt — regardless of whether that report was delivered
successfully — so marker existence implies a ready report was *attempted*
at least once this lifecycle: every marker write in a PPS run or a whole
crawl is preceded by a report attempt, no write occurs when the marker
already exists, at most one write occurs per PPS run, and a completed PPS
run leaves the marker set. -/
theorem marker_implies_report_attempted :
    (∀ (lib : PyLib) (freebsd : Bool) (pps : PPSType) (s : AzState)
        (outs : List ReproOutcome),
      markerAfterReport (runTrace (_execute_pps lib freebsd pps s outs)) ∧
      (s.marker = true →
        Ev.writeMarker ∉ runTrace (_execute_pps lib freebsd pps s outs)) ∧
      countMarkerWrites
        (runTrace (_execute_pps lib freebsd pps s outs)) ≤ 1 ∧
      (∀ s2 tr, _execute_pps lib freebsd pps s outs = .ok s2 tr →
        s2.marker = true)) ∧
    (∀ (lib : PyLib) (freebsd : Bool) (localOvf : Option XNode)
        (s : AzState) (outs : List ReproOutcome),
      markerAfterReport
        (runTrace (crawl_metadata lib freebsd localOvf s outs))) :=
  ⟨execute_pps_marker_facts, crawl_markerAfterReport⟩

/-- Witness for C4 (amended): with the marker already present, a concrete
PPS run writes no marker. -/
theorem marker_implies_report_attempted_witness :
    ({ sW with marker := true } : AzState).marker = true ∧
    Ev.writeMarker ∉ runTrace (_execute_pps libW false PPSType.RUNNING
      { sW with marker := true } [ReproOutcome.ok docPpsW]) :=
  ⟨rfl,
   (marker_implies_report_attempted.1 libW false PPSType.RUNNING
     { sW with marker := true } [ReproOutcome.ok docPpsW]).2.1 rfl⟩

/-- C4 counterexample: `_execute_pps` ignores the result of
`_report_ready` and writes the ReadyMarker unconditionally — after a run
in which every report attempt failed, the marker exists although no ready
signal was ever delivered successfully. -/
theorem pps_marker_without_successful_report :
    runMarker (_execute_pps libW false PPSType.RUNNING sFailW
      [ReproOutcome.ok docPpsW]) = some true ∧
    Ev.reportReady true ∉ runTrace (_execute_pps libW false
      PPSType.RUNNING sFailW [ReproOutcome.ok docPpsW]) :=
  ⟨by decide, by decide⟩

/-- C2 (amended): in a crawl with PPS type Running and no ReadyMarker,
the orchestrator signals ready, persists the marker, blocks on the media
disconnect/reconnect event, refreshes networking, polls the
reprovision-data endpoint until a payload is returned, re-parses it —
and then, because the PPS phase never marks readiness as negotiated, the
orchestrator sends a *second* ready signal at the end of the crawl: over
the whole crawl the ready signal is sent exactly twice (once in the PPS
phase, once at completion), not once. -/
theorem crawl_running_pps_signals_ready_twice
    (outs : List ReproOutcome) (tp : List Ev)
    (hpoll : ∀ s : AzState, pollFetchLoop s outs = some (docPpsW, s, tp)) :
    runOkTrace (crawl_metadata libW false (some docPpsW) sW outs) =
      some ([Ev.loadLocal true, Ev.setupNet, Ev.fetchImds,
             Ev.reportReady true, Ev.writeMarker, Ev.waitMedia,
             Ev.setupNet] ++ tp ++
            [Ev.reparseOvf, Ev.fetchImds, Ev.reportReady true,
             Ev.cleanupMarker, Ev.teardownNet]) ∧
    countReady ([Ev.loadLocal true, Ev.setupNet, Ev.fetchImds,
             Ev.reportReady true, Ev.writeMarker, Ev.waitMedia,
             Ev.setupNet] ++ tp ++
            [Ev.reparseOvf, Ev.fetchImds, Ev.reportReady true,
             Ev.cleanupMarker, Ev.teardownNet]) = 2 := by
  have h4 : _poll_for_reprovision_data libW sPW outs =
      .ok sPW (tp ++ [Ev.reparseOvf]) := by
    unfold _poll_for_reprovision_data
    rw [hpoll sPW]
    rfl
  have hexec : _execute_pps libW false PPSType.RUNNING s3W outs =
      .ok s6W (([Ev.reportReady true, Ev.writeMarker, Ev.waitMedia,
        Ev.setupNet] ++ (tp ++ [Ev.reparseOvf])) ++ [Ev.fetchImds]) := by
    show afterPpsWait libW sPW [Ev.reportReady true, Ev.writeMarker,
      Ev.waitMedia, Ev.setupNet] outs = _
    unfold afterPpsWait
    rw [h4]
    rfl
  constructor
  · show runOkTrace (crawl_after_source libW false s3W tr3W outs) = _
    unfold crawl_after_source
    rw [if_neg (by decide),
      show crawl_determine_pps s3W = .ok PPSType.RUNNING from rfl]
    dsimp only
    rw [if_pos (by decide), hexec]
    dsimp only
    show runOkTrace (crawl_finish s6W (tr3W ++
      ([Ev.reportReady true, Ev.writeMarker, Ev.waitMedia, Ev.setupNet] ++
        (tp ++ [Ev.reparseOvf]) ++ [Ev.fetchImds]))) = _
    unfold crawl_finish
    rw [if_neg (by decide)]
    rw [if_pos (by decide)]
    simp only [runOkTrace, runTrace]
    simp [tr3W, List.append_assoc]
    rfl
  · have htp : ∀ e ∈ tp, ppsTailEv e = true :=
      pollFetchLoop_trace_events outs sW docPpsW sW tp (hpoll sW)
    have htp0 : countReady tp = 0 := by
      rw [countReady, List.countP_eq_zero]
      intro e he
      have h2 := htp e he
      cases e <;> simp_all [ppsTailEv]
    rw [countReady, List.countP_append, List.countP_append]
    rw [countReady] at htp0
    rw [htp0]
    rfl

/-- Witness for C2 (amended): one failed poll attempt then success. -/
theorem crawl_running_pps_signals_ready_twice_witness :
    runOkTrace (crawl_metadata libW false (some docPpsW) sW
      [ReproOutcome.errCode 410, ReproOutcome.ok docPpsW]) =
      some ([Ev.loadLocal true, Ev.setupNet, Ev.fetchImds,
             Ev.reportReady true, Ev.writeMarker, Ev.waitMedia,
             Ev.setupNet] ++ [Ev.pollFetch false, Ev.pollFetch true] ++
            [Ev.reparseOvf, Ev.fetchImds, Ev.reportReady true,
             Ev.cleanupMarker, Ev.teardownNet]) ∧
    countReady ([Ev.loadLocal true, Ev.setupNet, Ev.fetchImds,
             Ev.reportReady true, Ev.writeMarker, Ev.waitMedia,
             Ev.setupNet] ++ [Ev.pollFetch false, Ev.pollFetch true] ++
            [Ev.reparseOvf, Ev.fetchImds, Ev.reportReady true,
             Ev.cleanupMarker, Ev.teardownNet]) = 2 :=
  crawl_running_pps_signals_ready_twice
    [ReproOutcome.errCode 410, ReproOutcome.ok docPpsW]
    [Ev.pollFetch false, Ev.pollFetch true] (fun _ => rfl)

/-- C2 counterexample: in the concrete Running-PPS crawl (marker absent
initially, media wait, one failed poll then a successful fetch and
re-parse) the ready signal is sent twice over the crawl, not exactly
once. -/
theorem crawl_running_pps_double_ready :
    sW.marker = false ∧
    runOkTrace (crawl_metadata libW false (some docPpsW) sW
      [ReproOutcome.errCode 410, ReproOutcome.ok docPpsW]) =
      some [Ev.loadLocal true, Ev.setupNet, Ev.fetchImds,
            Ev.reportReady true, Ev.writeMarker, Ev.waitMedia,
            Ev.setupNet, Ev.pollFetch false, Ev.pollFetch true,
            Ev.reparseOvf, Ev.fetchImds, Ev.reportReady true,
            Ev.cleanupMarker, Ev.teardownNet] ∧
    countReady [Ev.loadLocal true, Ev.setupNet, Ev.fetchImds,
            Ev.reportReady true, Ev.writeMarker, Ev.waitMedia,
            Ev.setupNet, Ev.pollFetch false, Ev.pollFetch true,
            Ev.reparseOvf, Ev.fetchImds, Ev.reportReady true,
            Ev.cleanupMarker, Ev.teardownNet] = 2 := by
  refine ⟨rfl, ?_, by decide⟩
  decide

end AzureDS
